import Mathlib

/-! # minigap: a shallow embedding of `src/gap.cpp`

The individual-based forest gap model of `gap.cpp` is embedded function by
function.

* `double` values are read as elements of an arbitrary linearly ordered field
  `α` (the rationals make every definition executable, the reals give the
  intended semantics).
* The two things the program takes from the C library without fixing their
  value, `exp` and `RAND_MAX`, are the fields of `CLib`.
* `rand()` is a cursor into an arbitrary sequence of raw draws (`Rng`).
* `int` counters (`tree_age`, `Pft::npft`, species ids) are natural numbers;
  signed overflow of `tree_age++` is outside the model.
* Undefined accesses (`vector::operator[]` out of range, `%` by zero) make the
  embedded function return `none`.
* A quotient by zero is 0 in the field, where the `double` quotient is infinite
  or not a number.
-/

namespace Gap

/-! ## Environment: C library and random source -/

/-- The C library values used by `gap.cpp`: `exp` of math.h and `RAND_MAX` of stdlib.h. -/
structure CLib (α : Type) where
  exp : α → α
  RAND_MAX : ℕ

/-- State of the C random generator: the sequence of values `rand()` will return
and the number of calls made so far. -/
structure Rng where
  stream : ℕ → ℕ
  pos : ℕ

/-- One call of `rand()`: the value returned and the generator afterwards. -/
def Rng.rand (r : Rng) : ℕ × Rng :=
  (r.stream r.pos, { r with pos := r.pos + 1 })

/-! ## Constants of the anonymous namespace (gap.cpp 8-45) -/

section Constants
variable {α : Type} [LinearOrderedField α]

/-- Constant `PI` (gap.cpp:11). -/
def PI : α := 3.14159265358979323846

/-- Constant `DIAMETER_MIN` (gap.cpp:14). -/
def DIAMETER_MIN : α := 0.5

/-- Constant `SEED` (gap.cpp:17). -/
def SEED : ℕ := 74837891

/-- Constant `CHERRY_CUTOFF` (gap.cpp:20). -/
def CHERRY_CUTOFF : α := 55

/-- Constant `BIRCH_CUTOFF` (gap.cpp:23). -/
def BIRCH_CUTOFF : α := 1000

/-- Constant `K_EXT` (gap.cpp:26). -/
def K_EXT : α := 1 / 6000

end Constants

/-! ## struct Pft and the process-wide state -/

/-- The enumeration `tree_type` of gap.h. -/
inductive tree_type where
  | SHADE_TOLERANT
  | CHERRY
  | BIRCH
deriving DecidableEq, Repr

/-- The record `Pft` as initialised by `Pft::Pft` (gap.cpp:54-61). -/
structure Pft (α : Type) where
  name : String
  id : ℕ
  g : α
  c : α
  age_max : α
  type : tree_type
  d_max : α
  h_max : α
  b2 : α
  b3 : α
  degd_min : α
  degd_max : α
  wmin : α
  wmax : α

/-- The mutable process-wide state: the static counter `Pft::npft` and the
variables of the anonymous namespace (`output_header`, which only `get_header`
reads, is left out). -/
structure Globals (α : Type) where
  npft : ℕ
  pft_vector : List (Pft α)
  shade_tolerant_pfts : List ℕ
  cherry_pfts : List ℕ
  birch_pfts : List ℕ
  simulation_year : ℤ

/-- The state before `initialize_gap`: `Pft::npft = 0`, empty vectors. -/
def Globals.initial (α : Type) : Globals α :=
  { npft := 0, pft_vector := [], shade_tolerant_pfts := [], cherry_pfts := [],
    birch_pfts := [], simulation_year := 0 }

section Model
variable {α : Type} [LinearOrderedField α]

/-- The expression `pft_vector.push_back(Pft(...))`: `Pft::Pft` takes its id from
`Pft::npft` and increments the counter (gap.cpp:54-61). -/
def push_pft (G : Globals α) (name : String) (g c age_max : α) (type : tree_type)
    (d_max h_max b2 b3 degd_min degd_max wmin wmax : α) : Globals α :=
  let pft : Pft α :=
    { name := name, id := G.npft, g := g, c := c, age_max := age_max, type := type,
      d_max := d_max, h_max := h_max, b2 := b2, b3 := b3,
      degd_min := degd_min, degd_max := degd_max, wmin := wmin, wmax := wmax }
  { G with npft := G.npft + 1, pft_vector := G.pft_vector ++ [pft] }

/-- The loop of gap.cpp:342-351 from index `i` on, `todo` being `pft_vector` from
that index: each id goes to the vector of its class. -/
def classify_pfts (G : Globals α) : List (Pft α) → ℕ → Globals α
  | [], _ => G
  | pft :: todo, i =>
    let G1 : Globals α :=
      if pft.type = tree_type.SHADE_TOLERANT then
        { G with shade_tolerant_pfts := G.shade_tolerant_pfts ++ [i] }
      else if pft.type = tree_type.CHERRY then
        { G with cherry_pfts := G.cherry_pfts ++ [i] }
      else if pft.type = tree_type.BIRCH then
        { G with birch_pfts := G.birch_pfts ++ [i] }
      else G
    classify_pfts G1 todo (i + 1)

/-- The function `initialize_gap` (gap.cpp:321-380) on the process-wide state. The
call `srand(SEED)` fixes the random sequence, which is the `Rng` the callers
pass; the header string is not modelled. -/
def initialize_gap (G0 : Globals α) : Globals α :=
  let G1 := push_pft G0 "Sugar maple" 170 1.57 200 tree_type.SHADE_TOLERANT 152.5 4011 50.9 0.167 2000 6300 300 (-1)
  let G2 := push_pft G1 "Beech" 150 2.20 300 tree_type.SHADE_TOLERANT 122.0 3660 57.8 0.237 2100 6000 300 (-1)
  let G3 := push_pft G2 "Yellow birch" 100 0.486 300 tree_type.BIRCH 122.0 3050 47.8 0.196 2000 5300 250 (-1)
  let G4 := push_pft G3 "White ash" 130 1.75 100 tree_type.SHADE_TOLERANT 50.0 2160 80.2 0.802 2100 10700 320 (-1)
  let G5 := push_pft G4 "Mt. maple" 100 1.13 25 tree_type.SHADE_TOLERANT 13.5 500 53.8 2.0 2000 6300 320 (-1)
  let G6 := push_pft G5 "Striped maple" 150 1.75 30 tree_type.SHADE_TOLERANT 22.5 1000 76.6 1.70 2000 6300 320 (-1)
  let G7 := push_pft G6 "Pin cherry" 200 2.45 30 tree_type.CHERRY 28.5 1126 70.6 1.26 1100 8000 190 (-1)
  let G8 := push_pft G7 "Choke cherry" 150 2.45 20 tree_type.CHERRY 10.0 500 72.6 3.63 600 10000 155 (-1)
  let G9 := push_pft G8 "Balsam Fir" 200 2.5 80 tree_type.SHADE_TOLERANT 50.0 1830 67.9 0.679 1100 3700 190 (-1)
  let G10 := push_pft G9 "Spruce" 50 2.5 350 tree_type.SHADE_TOLERANT 50.0 1830 67.9 0.679 600 3700 190 (-1)
  let G11 := push_pft G10 "White birch" 140 0.486 80 tree_type.BIRCH 46.0 1830 73.6 0.800 1100 3700 190 600
  let G12 := push_pft G11 "Mt. ash" 150 1.75 30 tree_type.SHADE_TOLERANT 10.0 500 72.6 3.63 2000 4000 300 (-1)
  let G13 := push_pft G12 "Red maple" 240 1.75 150 tree_type.SHADE_TOLERANT 152.5 3660 46.3 0.152 2000 12400 300 (-1)
  let G14 := classify_pfts G13 G13.pft_vector 0
  { G14 with simulation_year := 0 }

/-! ## class Tree -/

/-- The data members of `Tree`; `pft` is the referenced (never mutated) record
`pft_vector[pft_id]`. -/
structure Tree (α : Type) where
  pft : Pft α
  pft_id : ℕ
  tree_age : ℕ
  d : α
  d_change : α
  h : α
  w : α
  ba : α
  sla : α

/-- Method `Tree::update_height` (gap.cpp:133-135). -/
def Tree.update_height (t : Tree α) : Tree α :=
  { t with h := 137 + t.pft.b2 * t.d - t.pft.b3 * t.d * t.d }

/-- Method `Tree::update_weight` (gap.cpp:137-139). -/
def Tree.update_weight (t : Tree α) : Tree α :=
  { t with w := t.pft.c * t.d * t.d }

/-- Method `Tree::update_basal_area` (gap.cpp:141-143). -/
def Tree.update_basal_area (t : Tree α) : Tree α :=
  { t with ba := 0.25 * PI * t.d * t.d }

/-- Method `Tree::set_sla` (gap.cpp:125-127). -/
def Tree.set_sla (t : Tree α) (s : α) : Tree α :=
  { t with sla := s }

/-- Accessor `Tree::height` (gap.cpp:105-107). -/
def Tree.height (t : Tree α) : α := t.h

/-- Accessor `Tree::weight` (gap.cpp:109-111). -/
def Tree.weight (t : Tree α) : α := t.w

/-- Accessor `Tree::basal_area` (gap.cpp:113-115). -/
def Tree.basal_area (t : Tree α) : α := t.ba

/-- Accessor `Tree::age` (gap.cpp:117-119). -/
def Tree.age (t : Tree α) : ℕ := t.tree_age

/-- Accessor `Tree::diameter_change` (gap.cpp:121-123). -/
def Tree.diameter_change (t : Tree α) : α := t.d_change

/-- Method `Tree::r_light` (gap.cpp:145-154). -/
def Tree.r_light (L : CLib α) (t : Tree α) : α :=
  let al := L.exp (-K_EXT * t.sla)
  if t.pft.type = tree_type.SHADE_TOLERANT then
    max (1 - L.exp (-4.64 * (al - 0.05))) 0
  else
    max (2.24 * (1 - L.exp (-1.136 * (al - 0.08)))) 0

/-- Constructor `Tree::Tree(int pft_id)` (gap.cpp:67-77). It fails when
`pft_vector[pft_id]` does not exist; `h`, `w`, `ba` are unset until the three
updates write them (the `0` here is never read). -/
def Tree.new (L : CLib α) (G : Globals α) (pft_id : ℕ) (r : Rng) : Option (Tree α × Rng) :=
  match G.pft_vector[pft_id]? with
  | none => none
  | some pft =>
    let x := r.rand.1
    let r1 := r.rand.2
    let small_random_addition : α := ((x : α) / (L.RAND_MAX : α)) * 0.1 * DIAMETER_MIN
    let t : Tree α :=
      { pft := pft, pft_id := pft_id, tree_age := 0,
        d := DIAMETER_MIN + small_random_addition, d_change := 1, sla := 0,
        h := 0, w := 0, ba := 0 }
    some (t.update_height.update_weight.update_basal_area, r1)

/-- Method `Tree::growth` (gap.cpp:79-99). -/
def Tree.growth (L : CLib α) (t : Tree α) : Tree α :=
  let t1 : Tree α :=
    { t with d_change := t.pft.g * t.d * (1 - t.d * t.h / (t.pft.d_max * t.pft.h_max))
                / (274 + 3 * t.pft.b2 * t.d - 4 * t.pft.b3 * t.d * t.d) }
  let f_env : α := 1
  let t2 : Tree α := { t1 with d_change := t1.d_change * f_env * t1.r_light L }
  let t3 : Tree α := { t2 with d := t2.d + t2.d_change }
  let t4 := t3.update_height
  let t5 := t4.update_weight
  let t6 := t5.update_basal_area
  { t6 with tree_age := t6.tree_age + 1 }

/-! ## class Plot -/

/-- The data members of `Plot`: the `std::list<Tree>` and the two cached
aggregates. -/
structure Plot (α : Type) where
  trees : List (Tree α)
  weight : α
  basal_area : α

/-- Constructor `Plot::Plot` (gap.cpp:163-166). -/
def Plot.new : Plot α :=
  { trees := [], weight := 0, basal_area := 0 }

/-- The loop of gap.cpp:212-214: `n` more times `trees.push_back(Tree(pft_id))`. -/
def birth_saplings (L : CLib α) (G : Globals α) (pft_id : ℕ) :
    ℕ → List (Tree α) → Rng → Option (List (Tree α) × Rng)
  | 0, trees, r => some (trees, r)
  | n + 1, trees, r =>
    match Tree.new L G pft_id r with
    | none => none
    | some (t, r1) => birth_saplings L G pft_id n (trees ++ [t]) r1

/-- The loops of gap.cpp:220-223 and 227-230: `n` more times, draw a species of
`group` with `group[rand() % group.size()]` and push a new tree of it. -/
def birth_from_group (L : CLib α) (G : Globals α) (group : List ℕ) :
    ℕ → List (Tree α) → Rng → Option (List (Tree α) × Rng)
  | 0, trees, r => some (trees, r)
  | n + 1, trees, r =>
    if group.length = 0 then none
    else
      let x := r.rand.1
      let r1 := r.rand.2
      match group[x % group.length]? with
      | none => none
      | some new_pft =>
        match Tree.new L G new_pft r1 with
        | none => none
        | some (t, r2) => birth_from_group L G group n (trees ++ [t]) r2

/-- Method `Plot::birth` (gap.cpp:202-232). -/
def Plot.birth (L : CLib α) (G : Globals α) (p : Plot α) (r : Rng) : Option (Plot α × Rng) :=
  if G.shade_tolerant_pfts.length = 0 then none
  else
    let new_shade_tolerant_pft_index := r.rand.1 % G.shade_tolerant_pfts.length
    let r1 := r.rand.2
    match G.shade_tolerant_pfts[new_shade_tolerant_pft_index]? with
    | none => none
    | some new_shade_tolerant_pft =>
      let number_of_shade_tolerant_saplings := r1.rand.1 % 3
      let r2 := r1.rand.2
      match birth_saplings L G new_shade_tolerant_pft number_of_shade_tolerant_saplings p.trees r2 with
      | none => none
      | some (trees1, r3) =>
        if p.weight < CHERRY_CUTOFF then
          let number_of_new_cherries := 60 + r3.rand.1 % 16
          let r4 := r3.rand.2
          match birth_from_group L G G.cherry_pfts number_of_new_cherries trees1 r4 with
          | none => none
          | some (trees2, r5) => some ({ p with trees := trees2 }, r5)
        else if p.weight < BIRCH_CUTOFF then
          let number_of_new_birches := r3.rand.1 % 14
          let r4 := r3.rand.2
          match birth_from_group L G G.birch_pfts number_of_new_birches trees1 r4 with
          | none => none
          | some (trees2, r5) => some ({ p with trees := trees2 }, r5)
        else some ({ p with trees := trees1 }, r3)

/-! ### `std::list` iterators

An iterator of a list `l` is a position: `i < l.length` is the node of the
`i`-th element and `l.length` is `end()`, so that `it != l.end()` reads
`it < l.length`. The list is circular through its sentinel, as in the usual
implementations of `std::list` (libstdc++, libc++): the node before the first one
and the node after the last one are both `end()`. `Plot::kill` relies on it when
it erases the first tree: `--trees.erase(it)` is then `--trees.begin()`, which
the loop's `it++` brings back to `trees.begin()`. -/

/-- The call `l.erase(it)`: the list without the node, and the iterator to the node that
followed it. -/
def list_erase {β : Type} (l : List β) (it : ℕ) : List β × ℕ :=
  (l.eraseIdx it, it)

/-- The operation `--it` on an iterator of `l`. -/
def iter_dec {β : Type} (l : List β) (it : ℕ) : ℕ :=
  if it = 0 then l.length else it - 1

/-- The operation `it++` on an iterator of `l`. -/
def iter_inc {β : Type} (l : List β) (it : ℕ) : ℕ :=
  if it = l.length then 0 else it + 1

/-- The expression `1. - pow((1. - 4./(double)age_max), age)` of gap.cpp:240, the
probability of dying this year in the first death mechanism; `pow` with the
integer `age` is the power of the field. -/
def death_probability (age_max : α) (age : ℕ) : α :=
  1 - (1 - 4 / age_max) ^ age

/-- First loop of `Plot::kill` (gap.cpp:237-245), from the iterator `it` on. -/
def kill_first (L : CLib α) (trees : List (Tree α)) (it : ℕ) (r : Rng) : List (Tree α) × Rng :=
  if hit : it < trees.length then
    let tree := trees[it]
    let p : α := death_probability tree.pft.age_max tree.age
    if ((r.rand.1 : α) / (L.RAND_MAX : α)) < p then
      let trees1 := (list_erase trees it).1
      let it1 := iter_dec trees1 (list_erase trees it).2
      kill_first L trees1 (iter_inc trees1 it1) r.rand.2
    else
      kill_first L trees (iter_inc trees it) r.rand.2
  else (trees, r)
termination_by trees.length - it
decreasing_by
  · simp only [list_erase, iter_inc, iter_dec, List.length_eraseIdx, if_pos hit]
    by_cases h0 : it = 0
    · subst h0; simp; omega
    · rw [if_neg h0, if_neg (by omega)]; omega
  · simp only [iter_inc]
    rw [if_neg (by omega)]; omega

/-- Second loop of `Plot::kill` (gap.cpp:248-258), from the iterator `it` on;
`rand()` is called only when the first operand of `&&` holds. -/
def kill_second (L : CLib α) (trees : List (Tree α)) (it : ℕ) (r : Rng) : List (Tree α) × Rng :=
  if hit : it < trees.length then
    let tree := trees[it]
    if tree.diameter_change < 0.01 then
      if ((r.rand.1 : α) / (L.RAND_MAX : α)) < 0.368 then
        let trees1 := (list_erase trees it).1
        let it1 := iter_dec trees1 (list_erase trees it).2
        kill_second L trees1 (iter_inc trees1 it1) r.rand.2
      else
        kill_second L trees (iter_inc trees it) r.rand.2
    else
      kill_second L trees (iter_inc trees it) r
  else (trees, r)
termination_by trees.length - it
decreasing_by
  · simp only [list_erase, iter_inc, iter_dec, List.length_eraseIdx, if_pos hit]
    by_cases h0 : it = 0
    · subst h0; simp; omega
    · rw [if_neg h0, if_neg (by omega)]; omega
  · simp only [iter_inc]
    rw [if_neg (by omega)]; omega
  · simp only [iter_inc]
    rw [if_neg (by omega)]; omega

/-- Method `Plot::kill` (gap.cpp:234-259): both loops start at `trees.begin()`. -/
def Plot.kill (L : CLib α) (p : Plot α) (r : Rng) : Plot α × Rng :=
  let s1 := kill_first L p.trees 0 r
  let s2 := kill_second L s1.1 0 s1.2
  ({ p with trees := s2.1 }, s2.2)

/-- Inner loop of gap.cpp:265-270: the weight of the trees of `trees` higher than
`tree`. -/
def shading (trees : List (Tree α)) (tree : Tree α) : α :=
  trees.foldl (fun sla tree1 => if tree1.height > tree.height then sla + tree1.weight else sla) 0

/-- First loop of `Plot::growth` (gap.cpp:264-272). The list is updated in place:
`done` are the trees already visited (with their new `sla`), `todo` the trees
still to visit, and the inner loop reads the whole current list. -/
def growth_sla : List (Tree α) → List (Tree α) → List (Tree α)
  | done, [] => done
  | done, tree :: todo =>
    let sla := shading (done ++ tree :: todo) tree
    growth_sla (done ++ [tree.set_sla sla]) todo

/-- Second loop of `Plot::growth` (gap.cpp:276-282) on the plot whose visited
trees are `done` and whose trees to visit are `todo`. -/
def growth_trees (L : CLib α) : List (Tree α) → List (Tree α) → α → α → Plot α
  | done, [], weight, basal_area =>
    { trees := done, weight := weight, basal_area := basal_area }
  | done, tree :: todo, weight, basal_area =>
    let tree1 := tree.growth L
    growth_trees L (done ++ [tree1]) todo (weight + tree1.weight) (basal_area + tree1.basal_area)

/-- Method `Plot::growth` (gap.cpp:261-283). -/
def Plot.growth (L : CLib α) (p : Plot α) : Plot α :=
  let trees1 := growth_sla [] p.trees
  growth_trees L [] trees1 0 0

/-- Method `Plot::advance` (gap.cpp:170-178). -/
def Plot.advance (L : CLib α) (G : Globals α) (p : Plot α) (r : Rng) : Option (Plot α × Rng) :=
  match p.birth L G r with
  | none => none
  | some (p1, r1) =>
    let s := p1.kill L r1
    some (s.1.growth L, s.2)

/-- Function `npft()` (gap.cpp:382-384). -/
def npft (G : Globals α) : ℕ := G.npft

/-- Function `increase_simulation_year` (gap.cpp:386-388). -/
def increase_simulation_year (G : Globals α) : Globals α :=
  { G with simulation_year := G.simulation_year + 1 }

/-- The values that one call of `Plot::info` prints: year, number of trees, weight
and basal area of the plot, then one triplet (count, weight, basal area) per
species id. -/
structure PlotInfo (α : Type) where
  year : ℤ
  ntrees : ℕ
  weight : α
  basal_area : α
  per_pft : List (ℕ × α × α)

/-- Inner loop of `Plot::info` (gap.cpp:185-194) for the species id `i`. -/
def info_pft (trees : List (Tree α)) (i : ℕ) : ℕ × α × α :=
  trees.foldl
    (fun acc tree =>
      if tree.pft.id = i then (acc.1 + 1, acc.2.1 + tree.weight, acc.2.2 + tree.basal_area)
      else acc)
    (0, 0, 0)

/-- Method `Plot::info` (gap.cpp:180-200), as the values it formats. -/
def Plot.info (G : Globals α) (p : Plot α) : PlotInfo α :=
  { year := G.simulation_year, ntrees := p.trees.length, weight := p.weight,
    basal_area := p.basal_area,
    per_pft := (List.range (npft G)).map (fun i => info_pft p.trees i) }

/-! ## class Forest -/

/-- The data member of `Forest`: its plots. -/
structure Forest (α : Type) where
  plots : List (Plot α)

/-- The loop of `Forest::Forest` (gap.cpp:291-293): `n` more times
`plots.push_back(Plot())`. -/
def push_plots : ℕ → List (Plot α) → List (Plot α)
  | 0, plots => plots
  | n + 1, plots => push_plots n (plots ++ [Plot.new])

/-- Constructor `Forest::Forest(int nplots)` (gap.cpp:290-294): the loop
`for (int i=0; i<nplots; i++)` runs `nplots` times, and not at all for a negative
`nplots`. -/
def Forest.new (nplots : ℤ) : Forest α :=
  { plots := push_plots nplots.toNat [] }

/-- Method `Forest::nplots` (gap.cpp:296-298). -/
def Forest.nplots (f : Forest α) : ℤ := (f.plots.length : ℤ)

/-- The loop of `Forest::advance` (gap.cpp:301-303), in place: `done` are the plots
already advanced, `todo` the plots still to advance. -/
def advance_plots (L : CLib α) (G : Globals α) :
    List (Plot α) → List (Plot α) → Rng → Option (List (Plot α) × Rng)
  | done, [], r => some (done, r)
  | done, plot :: todo, r =>
    match plot.advance L G r with
    | none => none
    | some (plot1, r1) => advance_plots L G (done ++ [plot1]) todo r1

/-- Method `Forest::advance` (gap.cpp:300-304). -/
def Forest.advance (L : CLib α) (G : Globals α) (f : Forest α) (r : Rng) :
    Option (Forest α × Rng) :=
  match advance_plots L G [] f.plots r with
  | none => none
  | some (plots1, r1) => some ({ plots := plots1 }, r1)

/-- Method `Forest::dump_output` (gap.cpp:306-310), as the list of the records it
prints. -/
def Forest.dump_output (G : Globals α) (f : Forest α) : List (PlotInfo α) :=
  f.plots.map (fun plot => plot.info G)

end Model

/-! ## Specification vocabulary -/

section SpecDefs
variable {α : Type} [LinearOrderedField α]

/-- The cached fields `h`, `w`, `ba` of a tree are the allometric functions of its
diameter, with the coefficients of its species. -/
def Tree.derived_exact (t : Tree α) : Prop :=
  t.h = 137 + t.pft.b2 * t.d - t.pft.b3 * t.d ^ 2 ∧
  t.w = t.pft.c * t.d ^ 2 ∧
  t.ba = (PI / 4) * t.d ^ 2

/-- The sum of `w` over the trees of `trees` that are strictly higher than `t`. -/
def overtopping_weight (trees : List (Tree α)) (t : Tree α) : α :=
  ((trees.filter (fun t1 => t.h < t1.h)).map (fun t1 => t1.w)).sum

/-- The index vector `group` is not empty and holds only ids of catalog species of
class `ty`. -/
def group_ok (G : Globals α) (group : List ℕ) (ty : tree_type) : Prop :=
  group ≠ [] ∧ ∀ id ∈ group, (G.pft_vector[id]?).map (fun pft => pft.type) = some ty

/-- The three index vectors are not empty and agree with the catalog, which is
what `Plot::birth` relies on. -/
structure Globals.WellFormed (G : Globals α) : Prop where
  shade_tolerant : group_ok G G.shade_tolerant_pfts tree_type.SHADE_TOLERANT
  cherry : group_ok G G.cherry_pfts tree_type.CHERRY
  birch : group_ok G G.birch_pfts tree_type.BIRCH

/-- A tree as `Tree::Tree` leaves it: a catalog species under its own id, age 0,
`d_change = 1`, no shading yet, derived fields computed. -/
def Tree.newborn (G : Globals α) (t : Tree α) : Prop :=
  G.pft_vector[t.pft_id]? = some t.pft ∧ t.tree_age = 0 ∧ t.d_change = 1 ∧ t.sla = 0 ∧
    t.derived_exact

/-- First mortality pass in the words of the specification: the trees are
visited once each, in list order; each visit takes one draw `u` and the tree is
removed exactly when `u < 1 − (1 − 4/age_max)^age`. -/
def mortality_pass1 (L : CLib α) : List (Tree α) → Rng → List (Tree α) × Rng
  | [], r => ([], r)
  | t :: ts, r =>
    let u : α := (r.rand.1 : α) / (L.RAND_MAX : α)
    let rest := mortality_pass1 L ts r.rand.2
    if u < 1 - (1 - 4 / t.pft.age_max) ^ t.tree_age then rest else (t :: rest.1, rest.2)

/-- Second mortality pass in the words of the specification: the trees are
visited once each, in list order; a draw is taken only for a tree with
`d_change < 0.01`, and that tree is removed exactly when the draw is below 0.368. -/
def mortality_pass2 (L : CLib α) : List (Tree α) → Rng → List (Tree α) × Rng
  | [], r => ([], r)
  | t :: ts, r =>
    if t.d_change < 0.01 then
      let u : α := (r.rand.1 : α) / (L.RAND_MAX : α)
      let rest := mortality_pass2 L ts r.rand.2
      if u < 0.368 then rest else (t :: rest.1, rest.2)
    else
      let rest := mortality_pass2 L ts r
      (t :: rest.1, rest.2)

/-- Mortality in the words of the specification: the second pass runs on the
survivors of the first, with the generator the first pass left. -/
def kill_spec (L : CLib α) (p : Plot α) (r : Rng) : Plot α × Rng :=
  let s1 := mortality_pass1 L p.trees r
  let s2 := mortality_pass2 L s1.1 s1.2
  ({ p with trees := s2.1 }, s2.2)

/-- The number of draws the second pass takes on `trees`: one per tree with
`d_change < 0.01`. -/
def stressed_count (trees : List (Tree α)) : ℕ :=
  (trees.filter (fun t => t.d_change < 0.01)).length

/-- A tree that no mortality mechanism can remove: age 0 and `d_change ≥ 0.01`. -/
def Tree.unkillable (t : Tree α) : Prop :=
  t.tree_age = 0 ∧ (0.01 : α) ≤ t.d_change

instance Tree.unkillable_decidable (t : Tree α) : Decidable t.unkillable :=
  inferInstanceAs (Decidable (t.tree_age = 0 ∧ (0.01 : α) ≤ t.d_change))

/-- The plots `plots1` are the plots `plots` after one `Plot::advance` each, in
order, on the generator running from `r` to `r1`. -/
inductive advanced_each (L : CLib α) (G : Globals α) :
    List (Plot α) → Rng → List (Plot α) → Rng → Prop
  | nil (r : Rng) : advanced_each L G [] r [] r
  | cons (plot plot1 : Plot α) (plots plots1 : List (Plot α)) (r r1 r2 : Rng) :
      plot.advance L G r = some (plot1, r1) → advanced_each L G plots r1 plots1 r2 →
      advanced_each L G (plot :: plots) r (plot1 :: plots1) r2

/-- The forest after `n` successive calls of `Forest::advance`. -/
def Forest.advance_years (L : CLib α) (G : Globals α) :
    ℕ → Forest α → Rng → Option (Forest α × Rng)
  | 0, f, r => some (f, r)
  | n + 1, f, r =>
    match f.advance L G r with
    | none => none
    | some (f1, r1) => Forest.advance_years L G n f1 r1

end SpecDefs

/-- Two generators that will return the same sequence of draws. -/
def Rng.same_draws (r1 r2 : Rng) : Prop :=
  ∀ k, r1.stream (r1.pos + k) = r2.stream (r2.pos + k)

/-- Two results are the same up to the generator, which returns the same draws
afterwards. -/
def same_result {X : Type} (a b : Option (X × Rng)) : Prop :=
  match a, b with
  | none, none => True
  | some (x, r), some (y, s) => x = y ∧ r.same_draws s
  | _, _ => False

/-! ## Concrete inputs -/

/-- A C library over the rationals, to run the model: `RAND_MAX` of glibc, and a
Taylor polynomial in the place of `exp`. -/
def clib_rat : CLib ℚ :=
  { exp := fun x => 1 + x + x ^ 2 / 2, RAND_MAX := 2147483647 }

/-- The catalog after `initialize_gap`, over the rationals. -/
def catalog_rat : Globals ℚ := initialize_gap (Globals.initial ℚ)

/-- A generator whose draws are 0, 1000003, 2000006, ... -/
def rng_linear : Rng := { stream := fun k => 1000003 * k, pos := 0 }

/-- A plot without trees whose cached weight is `weight`. -/
def plot_rat (weight : ℚ) : Plot ℚ :=
  { trees := [], weight := weight, basal_area := 0 }

/-- The record of White birch (id 10 of the catalog). -/
def white_birch : Pft ℚ :=
  { name := "White birch", id := 10, g := 140, c := 0.486, age_max := 80,
    type := tree_type.BIRCH, d_max := 46.0, h_max := 1830, b2 := 73.6, b3 := 0.800,
    degd_min := 1100, degd_max := 3700, wmin := 190, wmax := 600 }

/-- The generator `rng_linear` after five calls that returned the same draws
before: its next draws are 0, 1000003, 2000006, ... again. -/
def rng_shifted : Rng := { stream := fun k => 1000003 * (k - 5), pos := 5 }

/-- A C library over the rationals whose `exp` is monotone with `exp 0 = 1`: the
tangent of the exponential at 0. -/
def clib_tangent : CLib ℚ :=
  { exp := fun x => 1 + x, RAND_MAX := 2147483647 }

/-- A catalog restricted to one shade-tolerant species, Sugar maple alone, built
as `initialize_gap` builds the full one. -/
def catalog_single : Globals ℚ :=
  let G1 := push_pft (Globals.initial ℚ) "Sugar maple" 170 1.57 200 tree_type.SHADE_TOLERANT
    152.5 4011 50.9 0.167 2000 6300 300 (-1)
  classify_pfts G1 G1.pft_vector 0

/-- A catalog with one shade-tolerant species and one CHERRY species, Sugar maple
and Pin cherry, and no BIRCH species. -/
def catalog_two : Globals ℚ :=
  let G1 := push_pft (Globals.initial ℚ) "Sugar maple" 170 1.57 200 tree_type.SHADE_TOLERANT
    152.5 4011 50.9 0.167 2000 6300 300 (-1)
  let G2 := push_pft G1 "Pin cherry" 200 2.45 30 tree_type.CHERRY 28.5 1126 70.6 1.26 1100
    8000 190 (-1)
  classify_pfts G2 G2.pft_vector 0

/-- A Sugar maple (shade tolerant, id 0) of age 3, diameter 2, under the shading
`sla`, over any field. -/
def maple_tree (α : Type) [LinearOrderedField α] (sla : α) : Tree α :=
  { pft := { name := "Sugar maple", id := 0, g := 170, c := 1.57, age_max := 200,
             type := tree_type.SHADE_TOLERANT, d_max := 152.5, h_max := 4011, b2 := 50.9,
             b3 := 0.167, degd_min := 2000, degd_max := 6300, wmin := 300, wmax := -1 },
    pft_id := 0, tree_age := 3, d := 2, d_change := 1 / 2, h := 238, w := 6, ba := 3,
    sla := sla }

/-- A White birch of age 3 with the given cached height and weight. -/
def birch_rat (h w : ℚ) : Tree ℚ :=
  { pft := white_birch, pft_id := 10, tree_age := 3, d := 2, d_change := 1 / 2,
    h := h, w := w, ba := 3, sla := 0 }

/-! ## Tree: derived fields, growth step, light response -/

section TreeTheorems
variable {α : Type} [LinearOrderedField α]

theorem Tree.growth_derived_exact (L : CLib α) (t : Tree α) : (t.growth L).derived_exact := by
  refine ⟨?_, ?_, ?_⟩
  · simp only [Tree.growth, Tree.update_height, Tree.update_weight, Tree.update_basal_area]
    ring
  · simp only [Tree.growth, Tree.update_height, Tree.update_weight, Tree.update_basal_area]
    ring
  · simp only [Tree.growth, Tree.update_height, Tree.update_weight, Tree.update_basal_area]
    norm_num
    ring

theorem Tree.new_eq (L : CLib α) (G : Globals α) (pft_id : ℕ) (r : Rng) (pft : Pft α)
    (h : G.pft_vector[pft_id]? = some pft) :
    ∃ t, Tree.new L G pft_id r = some (t, r.rand.2) ∧ t.pft = pft ∧ t.pft_id = pft_id ∧
      t.newborn G ∧
      t.d = DIAMETER_MIN + ((r.rand.1 : α) / (L.RAND_MAX : α)) * 0.1 * DIAMETER_MIN := by
  simp only [Tree.new, h]
  refine ⟨_, rfl, rfl, rfl, ⟨h, rfl, rfl, rfl, ?_, ?_, ?_⟩, rfl⟩
  · simp only [Tree.update_height, Tree.update_weight, Tree.update_basal_area]
    ring
  · simp only [Tree.update_height, Tree.update_weight, Tree.update_basal_area]
    ring
  · simp only [Tree.update_height, Tree.update_weight, Tree.update_basal_area]
    norm_num
    ring

/-- C1: right after `Tree::growth`, and right after the construction of a tree of a
catalog species, `h = 137 + b2·d − b3·d²`, `w = c·d²` and `ba = (PI/4)·d²` for the
tree's current diameter and the coefficients of its species. -/
theorem derived_fields_exact (L : CLib α) :
    (∀ t : Tree α, (t.growth L).derived_exact ∧ (t.growth L).pft = t.pft) ∧
    (∀ (G : Globals α) (pft_id : ℕ) (r : Rng), pft_id < G.pft_vector.length →
      ∃ t r1, Tree.new L G pft_id r = some (t, r1) ∧
        G.pft_vector[pft_id]? = some t.pft ∧ t.derived_exact) := by
  refine ⟨fun t => ⟨Tree.growth_derived_exact L t, rfl⟩, ?_⟩
  intro G pft_id r hlt
  obtain ⟨t, ht, hp, -, hn, -⟩ :=
    Tree.new_eq L G pft_id r (G.pft_vector[pft_id]) (List.getElem?_eq_getElem hlt)
  exact ⟨t, _, ht, by rw [hp]; exact List.getElem?_eq_getElem hlt, hn.2.2.2.2⟩

/-- C4: `Tree::growth` sets `d_change` to the increment formula (with the cached
height of before the step) times 1 times `r_light`, adds it to the diameter,
adds 1 to the age and leaves `sla` and the species alone. -/
theorem growth_step (L : CLib α) (t : Tree α) :
    (t.growth L).d_change =
        t.pft.g * t.d * (1 - t.d * t.h / (t.pft.d_max * t.pft.h_max))
          / (274 + 3 * t.pft.b2 * t.d - 4 * t.pft.b3 * t.d ^ 2) * 1 * t.r_light L ∧
      (t.growth L).d = t.d + (t.growth L).d_change ∧
      (t.growth L).tree_age = t.tree_age + 1 ∧
      (t.growth L).sla = t.sla ∧
      (t.growth L).pft = t.pft ∧ (t.growth L).pft_id = t.pft_id := by
  refine ⟨?_, rfl, rfl, rfl, rfl, rfl⟩
  simp only [Tree.growth, Tree.update_height, Tree.update_weight, Tree.update_basal_area]
  rw [show 4 * t.pft.b3 * t.d * t.d = 4 * t.pft.b3 * t.d ^ 2 by ring]
  rfl

/-- C10: `Tree::r_light` is never negative, for every `sla` and for both branches
of the tolerance class. -/
theorem r_light_nonneg (L : CLib α) (t : Tree α) : 0 ≤ t.r_light L := by
  unfold Tree.r_light
  split
  · exact le_max_right _ _
  · exact le_max_right _ _

end TreeTheorems

/-- Witness of C1: the construction of a Sugar maple (id 0) from the catalog of
`initialize_gap`. -/
theorem derived_fields_exact_witness :
    (0 : ℕ) < catalog_rat.pft_vector.length ∧
      ∃ t r1, Tree.new clib_rat catalog_rat 0 rng_linear = some (t, r1) ∧
        catalog_rat.pft_vector[0]? = some t.pft ∧ t.derived_exact :=
  ⟨by decide, (derived_fields_exact clib_rat).2 catalog_rat 0 rng_linear (by decide)⟩

/-! ## Mortality probability -/

section Mortality
variable {α : Type} [LinearOrderedField α]

/-- C9 as stated fails: with `age_max = 4` the death probability is 1 at age 1 and
at age 2, so it does not increase from age 1 to age 2. -/
theorem death_probability_not_increasing :
    death_probability (4 : ℚ) 1 = 1 ∧ death_probability (4 : ℚ) 2 = 1 ∧
      ¬ death_probability (4 : ℚ) 1 < death_probability (4 : ℚ) 2 := by
  norm_num [death_probability]

/-- C9, amended: for `age_max > 4` the death probability `1 − (1 − 4/age_max)^age`
of the first mortality mechanism is strictly increasing in the age. -/
theorem death_probability_strict_mono (age_max : α) (h4 : 4 < age_max) (a b : ℕ)
    (hab : a < b) : death_probability age_max a < death_probability age_max b := by
  have hpos : (0 : α) < age_max := lt_trans (by norm_num) h4
  have hq0 : (0 : α) < 1 - 4 / age_max := by
    rw [sub_pos, div_lt_one hpos]; exact h4
  have hq1 : 1 - 4 / age_max < (1 : α) := by
    rw [sub_lt_self_iff]; exact div_pos (by norm_num) hpos
  unfold death_probability
  exact sub_lt_sub_left (pow_lt_pow_right_of_lt_one₀ hq0 hq1 hab) 1

end Mortality

/-- Witness of C9 (amended): Choke cherry, `age_max = 20`, ages 0 and 1. -/
theorem death_probability_strict_mono_witness :
    (4 : ℚ) < 20 ∧ (0 : ℕ) < 1 ∧
      death_probability (20 : ℚ) 0 < death_probability (20 : ℚ) 1 :=
  ⟨by norm_num, by decide, death_probability_strict_mono 20 (by norm_num) 0 1 (by decide)⟩

/-! ## Plot.growth: shading and aggregates -/

section GrowthTheorems
variable {α : Type} [LinearOrderedField α]

theorem shading_foldl (trees : List (Tree α)) (t : Tree α) (acc : α) :
    trees.foldl (fun sla tree1 => if tree1.height > t.height then sla + tree1.weight else sla) acc
      = acc + overtopping_weight trees t := by
  induction trees generalizing acc with
  | nil => simp [overtopping_weight]
  | cons x xs ih =>
    rw [List.foldl_cons, ih]
    by_cases hx : t.h < x.h
    · have hx1 : x.height > t.height := hx
      simp [overtopping_weight, List.filter_cons, hx, hx1, Tree.weight, add_assoc]
    · have hx1 : ¬ x.height > t.height := hx
      simp [overtopping_weight, List.filter_cons, hx, hx1]

theorem shading_eq (trees : List (Tree α)) (t : Tree α) :
    shading trees t = overtopping_weight trees t := by
  unfold shading
  rw [shading_foldl, zero_add]

theorem overtopping_weight_append (l1 l2 : List (Tree α)) (t : Tree α) :
    overtopping_weight (l1 ++ l2) t = overtopping_weight l1 t + overtopping_weight l2 t := by
  simp [overtopping_weight, List.filter_append]

theorem overtopping_weight_set_sla (x t : Tree α) (s : α) :
    overtopping_weight [x.set_sla s] t = overtopping_weight [x] t := by
  by_cases hx : t.h < x.h <;> simp [overtopping_weight, List.filter_cons, Tree.set_sla, hx]

theorem growth_sla_eq (orig done todo : List (Tree α))
    (hinv : ∀ t, overtopping_weight done t = overtopping_weight orig t) :
    growth_sla done todo
      = done ++ todo.map (fun t => t.set_sla (overtopping_weight (orig ++ todo) t)) := by
  induction todo generalizing orig done with
  | nil => simp [growth_sla]
  | cons x xs ih =>
    rw [growth_sla, ih (orig ++ [x])]
    · have hx : shading (done ++ x :: xs) x = overtopping_weight (orig ++ x :: xs) x := by
        rw [shading_eq, overtopping_weight_append, overtopping_weight_append, hinv]
      simp [hx]
    · intro t
      rw [overtopping_weight_append, overtopping_weight_append, hinv,
        overtopping_weight_set_sla]

theorem growth_trees_eq (L : CLib α) (done todo : List (Tree α)) (weight basal_area : α) :
    growth_trees L done todo weight basal_area
      = { trees := done ++ todo.map (fun t => t.growth L),
          weight := weight + ((todo.map (fun t => t.growth L)).map (fun t => t.w)).sum,
          basal_area := basal_area + ((todo.map (fun t => t.growth L)).map (fun t => t.ba)).sum } := by
  induction todo generalizing done weight basal_area with
  | nil => simp [growth_trees]
  | cons x xs ih =>
    rw [growth_trees, ih]
    simp [Tree.weight, Tree.basal_area, add_assoc]

theorem Plot.growth_eq (L : CLib α) (p : Plot α) :
    p.growth L
      = { trees := p.trees.map (fun t => (t.set_sla (overtopping_weight p.trees t)).growth L),
          weight := ((p.trees.map
            (fun t => (t.set_sla (overtopping_weight p.trees t)).growth L)).map (fun t => t.w)).sum,
          basal_area := ((p.trees.map
            (fun t => (t.set_sla (overtopping_weight p.trees t)).growth L)).map (fun t => t.ba)).sum } := by
  unfold Plot.growth
  rw [growth_trees_eq, growth_sla_eq [] [] p.trees (fun _ => rfl)]
  simp [List.map_map, Function.comp_def]

theorem Plot.growth_aggregates (L : CLib α) (p : Plot α) :
    (p.growth L).weight = ((p.growth L).trees.map (fun t => t.w)).sum ∧
      (p.growth L).basal_area = ((p.growth L).trees.map (fun t => t.ba)).sum := by
  rw [Plot.growth_eq]
  exact ⟨rfl, rfl⟩

/-- C3: in `Plot::growth` every tree grows with `sla` equal to the sum of `w` over
the trees strictly higher than it, heights and weights being those of before any
tree has grown; a tree that no tree exceeds in height grows with `sla = 0`. -/
theorem growth_uses_pre_growth_shading (L : CLib α) (p : Plot α) :
    (p.growth L).trees
        = p.trees.map (fun t => (t.set_sla (overtopping_weight p.trees t)).growth L) ∧
      (∀ t : Tree α, (∀ t1 ∈ p.trees, t1.h ≤ t.h) → overtopping_weight p.trees t = 0) := by
  refine ⟨by rw [Plot.growth_eq], ?_⟩
  intro t ht
  have hnil : p.trees.filter (fun t1 => t.h < t1.h) = [] := by
    rw [List.filter_eq_nil_iff]
    intro t1 h1
    simpa using ht t1 h1
  simp [overtopping_weight, hnil]

end GrowthTheorems

/-! ## Plot.birth -/

theorem group_ok_lookup {α : Type} {G : Globals α} {group : List ℕ} {ty : tree_type}
    (h : group_ok G group ty) {id : ℕ} (hid : id ∈ group) :
    ∃ pft, G.pft_vector[id]? = some pft ∧ pft.type = ty := by
  have h1 := h.2 id hid
  cases hp : G.pft_vector[id]? with
  | none => simp [hp] at h1
  | some pft => exact ⟨pft, rfl, by simpa [hp] using h1⟩

section BirthTheorems
variable {α : Type} [LinearOrderedField α]

theorem birth_saplings_eq (L : CLib α) (G : Globals α) (pft_id : ℕ) (pft : Pft α)
    (h : G.pft_vector[pft_id]? = some pft) (n : ℕ) (trees : List (Tree α)) (r : Rng) :
    ∃ new r1, birth_saplings L G pft_id n trees r = some (trees ++ new, r1) ∧
      new.length = n ∧ ∀ t ∈ new, t.pft_id = pft_id ∧ t.pft = pft ∧ t.newborn G := by
  induction n generalizing trees r with
  | zero => exact ⟨[], r, by simp [birth_saplings], rfl, by simp⟩
  | succ n ih =>
    obtain ⟨t, ht, hp, hi, hn, -⟩ := Tree.new_eq L G pft_id r pft h
    obtain ⟨new, r1, hb, hl, hall⟩ := ih (trees ++ [t]) r.rand.2
    refine ⟨t :: new, r1, ?_, by simp [hl], ?_⟩
    · simp only [birth_saplings, ht, hb]
      simp
    · intro x hx
      rcases List.mem_cons.1 hx with rfl | hx
      · exact ⟨hi, hp, hn⟩
      · exact hall x hx

theorem birth_from_group_eq (L : CLib α) (G : Globals α) (group : List ℕ) (ty : tree_type)
    (h : group_ok G group ty) (n : ℕ) (trees : List (Tree α)) (r : Rng) :
    ∃ new r1, birth_from_group L G group n trees r = some (trees ++ new, r1) ∧
      new.length = n ∧ ∀ t ∈ new, t.pft_id ∈ group ∧ t.pft.type = ty ∧ t.newborn G := by
  induction n generalizing trees r with
  | zero => exact ⟨[], r, by simp [birth_from_group], rfl, by simp⟩
  | succ n ih =>
    have hlen : 0 < group.length := List.length_pos.2 h.1
    have hlt : r.rand.1 % group.length < group.length := Nat.mod_lt _ hlen
    have hmem : group[r.rand.1 % group.length] ∈ group := List.getElem_mem _
    obtain ⟨pft, hpft, hty⟩ := group_ok_lookup h hmem
    obtain ⟨t, ht, hp, hi, hn, -⟩ :=
      Tree.new_eq L G (group[r.rand.1 % group.length]) r.rand.2 pft hpft
    obtain ⟨new, r1, hb, hl, hall⟩ := ih (trees ++ [t]) r.rand.2.rand.2
    refine ⟨t :: new, r1, ?_, by simp [hl], ?_⟩
    · simp only [birth_from_group, if_neg (Nat.pos_iff_ne_zero.1 hlen),
        List.getElem?_eq_getElem hlt, ht, hb]
      simp
    · intro x hx
      rcases List.mem_cons.1 hx with rfl | hx
      · exact ⟨by rw [hi]; exact hmem, by rw [hp]; exact hty, hn⟩
      · exact hall x hx

/-- What `Plot::birth` does for a well-formed catalog: the saplings of one
shade-tolerant species (at most 2), then the saplings `si` of the shade-intolerant
class that the plot weight selects. -/
theorem Plot.birth_eq (L : CLib α) (G : Globals α) (hG : G.WellFormed) (p : Plot α) (r : Rng) :
    ∃ (id : ℕ) (st si : List (Tree α)) (r1 : Rng),
      p.birth L G r = some ({ p with trees := p.trees ++ st ++ si }, r1) ∧
      id ∈ G.shade_tolerant_pfts ∧ st.length ≤ 2 ∧
      (∀ t ∈ st, t.pft_id = id ∧ t.pft.type = tree_type.SHADE_TOLERANT ∧ t.newborn G) ∧
      (p.weight < CHERRY_CUTOFF → 60 ≤ si.length ∧ si.length ≤ 75 ∧
        ∀ t ∈ si, t.pft_id ∈ G.cherry_pfts ∧ t.pft.type = tree_type.CHERRY ∧ t.newborn G) ∧
      (CHERRY_CUTOFF ≤ p.weight → p.weight < BIRCH_CUTOFF → si.length ≤ 13 ∧
        ∀ t ∈ si, t.pft_id ∈ G.birch_pfts ∧ t.pft.type = tree_type.BIRCH ∧ t.newborn G) ∧
      (BIRCH_CUTOFF ≤ p.weight → si = []) := by
  have hcut : (CHERRY_CUTOFF : α) < BIRCH_CUTOFF := by
    simp only [CHERRY_CUTOFF, BIRCH_CUTOFF]; norm_num
  have hlen : 0 < G.shade_tolerant_pfts.length := List.length_pos.2 hG.shade_tolerant.1
  have hlt : r.rand.1 % G.shade_tolerant_pfts.length < G.shade_tolerant_pfts.length :=
    Nat.mod_lt _ hlen
  have hmem : G.shade_tolerant_pfts[r.rand.1 % G.shade_tolerant_pfts.length]
      ∈ G.shade_tolerant_pfts := List.getElem_mem _
  obtain ⟨pft, hpft, hty⟩ := group_ok_lookup hG.shade_tolerant hmem
  obtain ⟨st, r3, hst, hstl, hstall⟩ := birth_saplings_eq L G _ pft hpft
    (r.rand.2.rand.1 % 3) p.trees r.rand.2.rand.2
  have hst2 : st.length ≤ 2 := by
    rw [hstl]; exact Nat.lt_succ_iff.1 (Nat.mod_lt _ (by decide))
  have hstprop : ∀ t ∈ st,
      t.pft_id = G.shade_tolerant_pfts[r.rand.1 % G.shade_tolerant_pfts.length] ∧
        t.pft.type = tree_type.SHADE_TOLERANT ∧ t.newborn G := by
    intro t ht
    obtain ⟨h1, h2, h3⟩ := hstall t ht
    exact ⟨h1, by rw [h2]; exact hty, h3⟩
  by_cases hc : p.weight < CHERRY_CUTOFF
  · obtain ⟨si, r5, hsi, hsil, hsiall⟩ := birth_from_group_eq L G G.cherry_pfts
      tree_type.CHERRY hG.cherry (60 + r3.rand.1 % 16) (p.trees ++ st) r3.rand.2
    refine ⟨_, st, si, r5, ?_, hmem, hst2, hstprop, ?_, ?_, ?_⟩
    · simp only [Plot.birth, if_neg (Nat.pos_iff_ne_zero.1 hlen),
        List.getElem?_eq_getElem hlt, hst, if_pos hc, hsi]
    · intro _
      have := Nat.mod_lt r3.rand.1 (show 0 < 16 by decide)
      exact ⟨by omega, by omega, hsiall⟩
    · intro h1; exact absurd hc (not_lt.2 h1)
    · intro h1; exact absurd (lt_trans hc hcut) (not_lt.2 h1)
  · by_cases hb : p.weight < BIRCH_CUTOFF
    · obtain ⟨si, r5, hsi, hsil, hsiall⟩ := birth_from_group_eq L G G.birch_pfts
        tree_type.BIRCH hG.birch (r3.rand.1 % 14) (p.trees ++ st) r3.rand.2
      refine ⟨_, st, si, r5, ?_, hmem, hst2, hstprop, ?_, ?_, ?_⟩
      · simp only [Plot.birth, if_neg (Nat.pos_iff_ne_zero.1 hlen),
          List.getElem?_eq_getElem hlt, hst, if_neg hc, if_pos hb, hsi]
      · intro h1; exact absurd h1 hc
      · intro _ _
        have := Nat.mod_lt r3.rand.1 (show 0 < 14 by decide)
        exact ⟨by omega, hsiall⟩
      · intro h1; exact absurd hb (not_lt.2 h1)
    · refine ⟨_, st, [], r3, ?_, hmem, hst2, hstprop, ?_, ?_, ?_⟩
      · simp only [Plot.birth, if_neg (Nat.pos_iff_ne_zero.1 hlen),
          List.getElem?_eq_getElem hlt, hst, if_neg hc, if_neg hb, List.append_nil]
      · intro h1; exact absurd h1 hc
      · intro _ h1; exact absurd h1 hb
      · intro _; rfl

end BirthTheorems

/-! ## Plot.kill -/

section KillTheorems
variable {α : Type} [LinearOrderedField α]

theorem kill_first_sublist (L : CLib α) (trees : List (Tree α)) (it : ℕ) (r : Rng) :
    (kill_first L trees it r).1.Sublist trees := by
  induction trees, it, r using kill_first.induct L with
  | case1 trees it r hit tree p hdie trees1 it1 ih =>
    rw [kill_first, dif_pos hit]
    simp only [hdie, if_true]
    exact ih.trans (List.eraseIdx_sublist trees it)
  | case2 trees it r hit tree p hlive ih =>
    rw [kill_first, dif_pos hit]
    simp only [hlive, if_false]
    exact ih
  | case3 trees it r hit =>
    rw [kill_first, dif_neg hit]

theorem kill_second_sublist (L : CLib α) (trees : List (Tree α)) (it : ℕ) (r : Rng) :
    (kill_second L trees it r).1.Sublist trees := by
  induction trees, it, r using kill_second.induct L with
  | case1 trees it r hit tree hstress hdie trees1 it1 ih =>
    rw [kill_second, dif_pos hit]
    simp only [hstress, hdie, if_true]
    exact ih.trans (List.eraseIdx_sublist trees it)
  | case2 trees it r hit tree hstress hlive ih =>
    rw [kill_second, dif_pos hit]
    simp only [hstress, hlive, if_true, if_false]
    exact ih
  | case3 trees it r hit tree hfine ih =>
    rw [kill_second, dif_pos hit]
    simp only [hfine, if_false]
    exact ih
  | case4 trees it r hit =>
    rw [kill_second, dif_neg hit]

/-- C8: `Plot::kill` never adds a tree: the list after it is a sublist of the list
before it (the same trees, unchanged, some of them removed), so the population
does not grow; the cached aggregates are not touched. -/
theorem kill_never_increases (L : CLib α) (p : Plot α) (r : Rng) :
    (p.kill L r).1.trees.length ≤ p.trees.length ∧
      (p.kill L r).1.trees.Sublist p.trees ∧
      (∀ t ∈ (p.kill L r).1.trees, t ∈ p.trees) := by
  have hsub : (p.kill L r).1.trees.Sublist p.trees :=
    (kill_second_sublist L _ 0 _).trans (kill_first_sublist L p.trees 0 r)
  exact ⟨hsub.length_le, hsub, fun t ht => hsub.subset ht⟩

end KillTheorems

/-! ## Plot.advance and the recruitment rules -/

section PlotTheorems
variable {α : Type} [LinearOrderedField α]

/-- C2: right after `Plot::growth`, hence right after `Plot::advance` (which returns
for every catalog whose groups are not empty and hold ids of their class), the
plot's `weight` is the sum of `w` and its `basal_area` the sum of `ba` over its
trees in their state after growth, whatever the trees and the former aggregates
were. -/
theorem aggregates_after_growth (L : CLib α) :
    (∀ p : Plot α,
      (p.growth L).weight = ((p.growth L).trees.map (fun t => t.w)).sum ∧
      (p.growth L).basal_area = ((p.growth L).trees.map (fun t => t.ba)).sum) ∧
    (∀ (G : Globals α) (p : Plot α) (r : Rng), G.WellFormed →
      ∃ p1 r1, p.advance L G r = some (p1, r1) ∧
        p1.weight = (p1.trees.map (fun t => t.w)).sum ∧
        p1.basal_area = (p1.trees.map (fun t => t.ba)).sum) := by
  refine ⟨fun p => Plot.growth_aggregates L p, ?_⟩
  intro G p r hG
  obtain ⟨id, st, si, r1, hb, -⟩ := Plot.birth_eq L G hG p r
  have hadv : p.advance L G r
      = some (((({ p with trees := p.trees ++ st ++ si } : Plot α).kill L r1).1.growth L),
          (({ p with trees := p.trees ++ st ++ si } : Plot α).kill L r1).2) := by
    simp only [Plot.advance, hb]
  exact ⟨_, _, hadv, Plot.growth_aggregates L _⟩

/-- C5: with `weight ≥ BIRCH_CUTOFF`, `Plot::birth` appends at most 2 trees, all of
one species of the shade-tolerant group, and no CHERRY or BIRCH tree, whatever the
random draws are (for a catalog whose three groups are not empty and hold ids of
their class, as after `initialize_gap`). -/
theorem birth_closed_canopy (L : CLib α) (G : Globals α) (hG : G.WellFormed) (p : Plot α)
    (r : Rng) (hw : BIRCH_CUTOFF ≤ p.weight) :
    ∃ (id : ℕ) (new : List (Tree α)) (r1 : Rng),
      p.birth L G r = some ({ p with trees := p.trees ++ new }, r1) ∧
      new.length ≤ 2 ∧ id ∈ G.shade_tolerant_pfts ∧
      ∀ t ∈ new, t.pft_id = id ∧ G.pft_vector[id]? = some t.pft ∧
        t.pft.type = tree_type.SHADE_TOLERANT ∧
        t.pft.type ≠ tree_type.CHERRY ∧ t.pft.type ≠ tree_type.BIRCH := by
  obtain ⟨id, st, si, r1, hb, hid, hst, hall, -, -, hnil⟩ := Plot.birth_eq L G hG p r
  have hsi := hnil hw
  subst hsi
  refine ⟨id, st, r1, by simpa using hb, hst, hid, ?_⟩
  intro t ht
  obtain ⟨h1, h2, h3⟩ := hall t ht
  refine ⟨h1, by rw [← h1]; exact h3.1, h2, ?_, ?_⟩ <;> rw [h2] <;> decide

/-- C6: with `weight < CHERRY_CUTOFF`, `Plot::birth` appends 0 to 2 trees of one
shade-tolerant species and then 60 to 75 trees of species of the CHERRY group, no
BIRCH tree, so that the population grows by 60 to 77 trees, whatever the random
draws are (for a catalog whose three groups are not empty and hold ids of their
class, as after `initialize_gap`). -/
theorem birth_early_succession (L : CLib α) (G : Globals α) (hG : G.WellFormed) (p : Plot α)
    (r : Rng) (hw : p.weight < CHERRY_CUTOFF) :
    ∃ (id : ℕ) (st ch : List (Tree α)) (p1 : Plot α) (r1 : Rng),
      p.birth L G r = some (p1, r1) ∧ p1.trees = p.trees ++ st ++ ch ∧
      st.length ≤ 2 ∧ id ∈ G.shade_tolerant_pfts ∧
      (∀ t ∈ st, t.pft_id = id ∧ t.pft.type = tree_type.SHADE_TOLERANT) ∧
      60 ≤ ch.length ∧ ch.length ≤ 75 ∧
      (∀ t ∈ ch, t.pft_id ∈ G.cherry_pfts ∧ t.pft.type = tree_type.CHERRY) ∧
      (∀ t ∈ st ++ ch, t.pft.type ≠ tree_type.BIRCH) ∧
      p.trees.length + 60 ≤ p1.trees.length ∧ p1.trees.length ≤ p.trees.length + 77 := by
  obtain ⟨id, st, si, r1, hb, hid, hst, hall, hch, -, -⟩ := Plot.birth_eq L G hG p r
  obtain ⟨h60, h75, hchall⟩ := hch hw
  refine ⟨id, st, si, _, r1, hb, rfl, hst, hid, fun t ht => ⟨(hall t ht).1, (hall t ht).2.1⟩,
    h60, h75, fun t ht => ⟨(hchall t ht).1, (hchall t ht).2.1⟩, ?_, ?_, ?_⟩
  · intro t ht
    rcases List.mem_append.1 ht with h | h
    · rw [(hall t h).2.1]; decide
    · rw [(hchall t h).2.1]; decide
  · simp only [List.length_append]; omega
  · simp only [List.length_append]; omega

/-- C7: with `CHERRY_CUTOFF ≤ weight < BIRCH_CUTOFF`, `Plot::birth` appends 0 to 2
trees of one shade-tolerant species and then 0 to 13 trees of species of the BIRCH
group, no CHERRY tree, so that the population grows by 0 to 15 trees, whatever the
random draws are (for a catalog whose three groups are not empty and hold ids of
their class, as after `initialize_gap`). -/
theorem birth_mid_succession (L : CLib α) (G : Globals α) (hG : G.WellFormed) (p : Plot α)
    (r : Rng) (hlo : CHERRY_CUTOFF ≤ p.weight) (hhi : p.weight < BIRCH_CUTOFF) :
    ∃ (id : ℕ) (st bi : List (Tree α)) (p1 : Plot α) (r1 : Rng),
      p.birth L G r = some (p1, r1) ∧ p1.trees = p.trees ++ st ++ bi ∧
      st.length ≤ 2 ∧ id ∈ G.shade_tolerant_pfts ∧
      (∀ t ∈ st, t.pft_id = id ∧ t.pft.type = tree_type.SHADE_TOLERANT) ∧
      bi.length ≤ 13 ∧
      (∀ t ∈ bi, t.pft_id ∈ G.birch_pfts ∧ t.pft.type = tree_type.BIRCH) ∧
      (∀ t ∈ st ++ bi, t.pft.type ≠ tree_type.CHERRY) ∧
      p.trees.length ≤ p1.trees.length ∧ p1.trees.length ≤ p.trees.length + 15 := by
  obtain ⟨id, st, si, r1, hb, hid, hst, hall, -, hbi, -⟩ := Plot.birth_eq L G hG p r
  obtain ⟨h13, hbiall⟩ := hbi hlo hhi
  refine ⟨id, st, si, _, r1, hb, rfl, hst, hid, fun t ht => ⟨(hall t ht).1, (hall t ht).2.1⟩,
    h13, fun t ht => ⟨(hbiall t ht).1, (hbiall t ht).2.1⟩, ?_, ?_, ?_⟩
  · intro t ht
    rcases List.mem_append.1 ht with h | h
    · rw [(hall t h).2.1]; decide
    · rw [(hbiall t h).2.1]; decide
  · simp only [List.length_append]; omega
  · simp only [List.length_append]; omega

end PlotTheorems

/-! ## Evaluation on concrete inputs -/

theorem initialize_gap_groups (α : Type) [LinearOrderedField α] :
    (initialize_gap (Globals.initial α)).shade_tolerant_pfts = [0, 1, 3, 4, 5, 8, 9, 11, 12] ∧
      (initialize_gap (Globals.initial α)).cherry_pfts = [6, 7] ∧
      (initialize_gap (Globals.initial α)).birch_pfts = [2, 10] := by
  simp [initialize_gap, push_pft, classify_pfts, Globals.initial]

theorem initialize_gap_types (α : Type) [LinearOrderedField α] :
    (initialize_gap (Globals.initial α)).pft_vector.map (fun pft => pft.type)
      = [tree_type.SHADE_TOLERANT, tree_type.SHADE_TOLERANT, tree_type.BIRCH,
          tree_type.SHADE_TOLERANT, tree_type.SHADE_TOLERANT, tree_type.SHADE_TOLERANT,
          tree_type.CHERRY, tree_type.CHERRY, tree_type.SHADE_TOLERANT,
          tree_type.SHADE_TOLERANT, tree_type.BIRCH, tree_type.SHADE_TOLERANT,
          tree_type.SHADE_TOLERANT] := by
  simp [initialize_gap, push_pft, classify_pfts, Globals.initial]

theorem group_ok_of_types {α : Type} (G : Globals α) (group : List ℕ) (ty : tree_type)
    (types : List tree_type) (ht : G.pft_vector.map (fun pft => pft.type) = types)
    (hne : group ≠ []) (hall : ∀ id ∈ group, types[id]? = some ty) : group_ok G group ty := by
  refine ⟨hne, fun id hid => ?_⟩
  rw [← hall id hid, ← ht, List.getElem?_map]

theorem initialize_gap_wellFormed (α : Type) [LinearOrderedField α] :
    (initialize_gap (Globals.initial α)).WellFormed := by
  obtain ⟨h1, h2, h3⟩ := initialize_gap_groups α
  refine ⟨?_, ?_, ?_⟩
  · rw [h1]
    exact group_ok_of_types _ _ _ _ (initialize_gap_types α) (by decide) (by decide)
  · rw [h2]
    exact group_ok_of_types _ _ _ _ (initialize_gap_types α) (by decide) (by decide)
  · rw [h3]
    exact group_ok_of_types _ _ _ _ (initialize_gap_types α) (by decide) (by decide)

theorem catalog_rat_wellFormed : catalog_rat.WellFormed :=
  initialize_gap_wellFormed ℚ

/-- Witness of C2: one year of an empty plot with the catalog of `initialize_gap`. -/
theorem aggregates_after_growth_witness :
    catalog_rat.WellFormed ∧
      ∃ p1 r1, (plot_rat 0).advance clib_rat catalog_rat rng_linear = some (p1, r1) ∧
        p1.weight = (p1.trees.map (fun t => t.w)).sum ∧
        p1.basal_area = (p1.trees.map (fun t => t.ba)).sum :=
  ⟨catalog_rat_wellFormed,
    (aggregates_after_growth clib_rat).2 catalog_rat (plot_rat 0) rng_linear
      catalog_rat_wellFormed⟩

/-- Witness of C3: of two birches of heights 200 and 300, the higher one is shaded
by nothing. -/
theorem growth_uses_pre_growth_shading_witness :
    (∀ t1 ∈ (Plot.mk [birch_rat 200 5, birch_rat 300 7] 0 0).trees,
        t1.h ≤ (birch_rat 300 7).h) ∧
      overtopping_weight (Plot.mk [birch_rat 200 5, birch_rat 300 7] 0 0).trees
        (birch_rat 300 7) = 0 :=
  have h : ∀ t1 ∈ (Plot.mk [birch_rat 200 5, birch_rat 300 7] 0 0).trees,
      t1.h ≤ (birch_rat 300 7).h := by
    intro t1 h1
    simp only [List.mem_cons, List.mem_singleton, List.not_mem_nil, or_false] at h1
    rcases h1 with rfl | rfl <;> norm_num [birch_rat]
  ⟨h, (growth_uses_pre_growth_shading clib_rat
    (Plot.mk [birch_rat 200 5, birch_rat 300 7] 0 0)).2 (birch_rat 300 7) h⟩

/-- Witness of C5: an empty plot whose cached weight is 1000. -/
theorem birth_closed_canopy_witness :
    catalog_rat.WellFormed ∧ (BIRCH_CUTOFF : ℚ) ≤ (plot_rat 1000).weight ∧
      ∃ (id : ℕ) (new : List (Tree ℚ)) (r1 : Rng),
        (plot_rat 1000).birth clib_rat catalog_rat rng_linear
          = some ({ plot_rat 1000 with trees := (plot_rat 1000).trees ++ new }, r1) ∧
        new.length ≤ 2 ∧ id ∈ catalog_rat.shade_tolerant_pfts ∧
        ∀ t ∈ new, t.pft_id = id ∧ catalog_rat.pft_vector[id]? = some t.pft ∧
          t.pft.type = tree_type.SHADE_TOLERANT ∧
          t.pft.type ≠ tree_type.CHERRY ∧ t.pft.type ≠ tree_type.BIRCH :=
  ⟨catalog_rat_wellFormed, by norm_num [BIRCH_CUTOFF, plot_rat],
    birth_closed_canopy clib_rat catalog_rat catalog_rat_wellFormed (plot_rat 1000) rng_linear
      (by norm_num [BIRCH_CUTOFF, plot_rat])⟩

/-- Witness of C6: an empty plot whose cached weight is 40. -/
theorem birth_early_succession_witness :
    catalog_rat.WellFormed ∧ (plot_rat 40).weight < (CHERRY_CUTOFF : ℚ) ∧
      ∃ (id : ℕ) (st ch : List (Tree ℚ)) (p1 : Plot ℚ) (r1 : Rng),
        (plot_rat 40).birth clib_rat catalog_rat rng_linear = some (p1, r1) ∧
        p1.trees = (plot_rat 40).trees ++ st ++ ch ∧
        st.length ≤ 2 ∧ id ∈ catalog_rat.shade_tolerant_pfts ∧
        (∀ t ∈ st, t.pft_id = id ∧ t.pft.type = tree_type.SHADE_TOLERANT) ∧
        60 ≤ ch.length ∧ ch.length ≤ 75 ∧
        (∀ t ∈ ch, t.pft_id ∈ catalog_rat.cherry_pfts ∧ t.pft.type = tree_type.CHERRY) ∧
        (∀ t ∈ st ++ ch, t.pft.type ≠ tree_type.BIRCH) ∧
        (plot_rat 40).trees.length + 60 ≤ p1.trees.length ∧
        p1.trees.length ≤ (plot_rat 40).trees.length + 77 :=
  ⟨catalog_rat_wellFormed, by norm_num [CHERRY_CUTOFF, plot_rat],
    birth_early_succession clib_rat catalog_rat catalog_rat_wellFormed (plot_rat 40) rng_linear
      (by norm_num [CHERRY_CUTOFF, plot_rat])⟩

/-- Witness of C7: an empty plot whose cached weight is 55, the inclusive bound. -/
theorem birth_mid_succession_witness :
    catalog_rat.WellFormed ∧ (CHERRY_CUTOFF : ℚ) ≤ (plot_rat 55).weight ∧
      (plot_rat 55).weight < (BIRCH_CUTOFF : ℚ) ∧
      ∃ (id : ℕ) (st bi : List (Tree ℚ)) (p1 : Plot ℚ) (r1 : Rng),
        (plot_rat 55).birth clib_rat catalog_rat rng_linear = some (p1, r1) ∧
        p1.trees = (plot_rat 55).trees ++ st ++ bi ∧
        st.length ≤ 2 ∧ id ∈ catalog_rat.shade_tolerant_pfts ∧
        (∀ t ∈ st, t.pft_id = id ∧ t.pft.type = tree_type.SHADE_TOLERANT) ∧
        bi.length ≤ 13 ∧
        (∀ t ∈ bi, t.pft_id ∈ catalog_rat.birch_pfts ∧ t.pft.type = tree_type.BIRCH) ∧
        (∀ t ∈ st ++ bi, t.pft.type ≠ tree_type.CHERRY) ∧
        (plot_rat 55).trees.length ≤ p1.trees.length ∧
        p1.trees.length ≤ (plot_rat 55).trees.length + 15 :=
  ⟨catalog_rat_wellFormed, by norm_num [CHERRY_CUTOFF, plot_rat],
    by norm_num [BIRCH_CUTOFF, plot_rat],
    birth_mid_succession clib_rat catalog_rat catalog_rat_wellFormed (plot_rat 55) rng_linear
      (by norm_num [CHERRY_CUTOFF, plot_rat]) (by norm_num [BIRCH_CUTOFF, plot_rat])⟩

/-! ## Construction of a tree; birth as an append -/

section NewTreeTheorems
variable {α : Type} [LinearOrderedField α]

/-- C11: a tree constructed for a catalog species, with a draw `rand()/RAND_MAX` in
[0, 1], has age 0, diameter `DIAMETER_MIN + u·0.1·DIAMETER_MIN` (between 0.5 and
0.55), `d_change = 1 > 0.01`, `sla = 0`, and `h`, `w`, `ba` computed from that
diameter. -/
theorem new_tree_state (L : CLib α) (G : Globals α) (pft_id : ℕ) (r : Rng)
    (hid : pft_id < G.pft_vector.length) (hu : r.rand.1 ≤ L.RAND_MAX) :
    ∃ t r1, Tree.new L G pft_id r = some (t, r1) ∧
      G.pft_vector[pft_id]? = some t.pft ∧ t.pft_id = pft_id ∧ t.tree_age = 0 ∧
      t.d = DIAMETER_MIN + ((r.rand.1 : α) / (L.RAND_MAX : α)) * 0.1 * DIAMETER_MIN ∧
      0.5 ≤ t.d ∧ t.d ≤ 0.55 ∧
      t.d_change = 1 ∧ (0.01 : α) < t.d_change ∧ t.sla = 0 ∧ t.derived_exact := by
  obtain ⟨t, ht, hp, hi, hn, hd⟩ :=
    Tree.new_eq L G pft_id r (G.pft_vector[pft_id]) (List.getElem?_eq_getElem hid)
  have hu0 : (0 : α) ≤ (r.rand.1 : α) / (L.RAND_MAX : α) :=
    div_nonneg (Nat.cast_nonneg _) (Nat.cast_nonneg _)
  have hu1 : (r.rand.1 : α) / (L.RAND_MAX : α) ≤ 1 :=
    div_le_one_of_le₀ (Nat.cast_le.2 hu) (Nat.cast_nonneg _)
  refine ⟨t, _, ht, by rw [hp]; exact List.getElem?_eq_getElem hid, hi, hn.2.1, hd, ?_, ?_,
    hn.2.2.1, ?_, hn.2.2.2.1, hn.2.2.2.2⟩
  · rw [hd]; simp only [DIAMETER_MIN]; norm_num; nlinarith
  · rw [hd]; simp only [DIAMETER_MIN]; norm_num; nlinarith
  · rw [hn.2.2.1]; norm_num

/-- C17: `Plot::birth` only appends: the tree list after it is the list before it,
unchanged, followed by the new trees, and `weight` and `basal_area` are left as
they were (for a catalog whose three groups are not empty and hold ids of their
class, as after `initialize_gap`). -/
theorem birth_only_appends (L : CLib α) (G : Globals α) (hG : G.WellFormed) (p : Plot α)
    (r : Rng) :
    ∃ (p1 : Plot α) (r1 : Rng) (new : List (Tree α)),
      p.birth L G r = some (p1, r1) ∧ p1.trees = p.trees ++ new ∧
      p1.weight = p.weight ∧ p1.basal_area = p.basal_area ∧ ∀ t ∈ new, t.newborn G := by
  obtain ⟨id, st, si, r1, hb, -, -, hst, hch, hbi, hnil⟩ := Plot.birth_eq L G hG p r
  refine ⟨_, r1, st ++ si, hb, by simp, rfl, rfl, ?_⟩
  intro t ht
  rcases List.mem_append.1 ht with h | h
  · exact (hst t h).2.2
  · by_cases hc : p.weight < CHERRY_CUTOFF
    · exact ((hch hc).2.2 t h).2.2
    · by_cases hb1 : p.weight < BIRCH_CUTOFF
      · exact ((hbi (not_lt.1 hc) hb1).2 t h).2.2
      · rw [hnil (not_lt.1 hb1)] at h
        exact absurd h (List.not_mem_nil t)

end NewTreeTheorems

/-- Witness of C11: a Pin cherry (id 6) constructed on the draw 0. -/
theorem new_tree_state_witness :
    (6 : ℕ) < catalog_rat.pft_vector.length ∧ rng_linear.rand.1 ≤ clib_rat.RAND_MAX ∧
      ∃ t r1, Tree.new clib_rat catalog_rat 6 rng_linear = some (t, r1) ∧
        catalog_rat.pft_vector[6]? = some t.pft ∧ t.pft_id = 6 ∧ t.tree_age = 0 ∧
        t.d = DIAMETER_MIN
          + ((rng_linear.rand.1 : ℚ) / (clib_rat.RAND_MAX : ℚ)) * 0.1 * DIAMETER_MIN ∧
        0.5 ≤ t.d ∧ t.d ≤ 0.55 ∧
        t.d_change = 1 ∧ (0.01 : ℚ) < t.d_change ∧ t.sla = 0 ∧ t.derived_exact :=
  ⟨by decide, by decide,
    new_tree_state clib_rat catalog_rat 6 rng_linear (by decide) (by decide)⟩

/-- Witness of C17: `Plot::birth` on an empty plot of cached weight 40. -/
theorem birth_only_appends_witness :
    catalog_rat.WellFormed ∧
      ∃ (p1 : Plot ℚ) (r1 : Rng) (new : List (Tree ℚ)),
        (plot_rat 40).birth clib_rat catalog_rat rng_linear = some (p1, r1) ∧
        p1.trees = (plot_rat 40).trees ++ new ∧
        p1.weight = (plot_rat 40).weight ∧ p1.basal_area = (plot_rat 40).basal_area ∧
        ∀ t ∈ new, t.newborn catalog_rat :=
  ⟨catalog_rat_wellFormed,
    birth_only_appends clib_rat catalog_rat catalog_rat_wellFormed (plot_rat 40) rng_linear⟩

/-! ## The catalog of `initialize_gap` -/

section CatalogTheorems
variable {α : Type} [LinearOrderedField α]

theorem initialize_gap_ids (α : Type) [LinearOrderedField α] :
    (initialize_gap (Globals.initial α)).pft_vector.map (fun pft => pft.id) = List.range 13 ∧
      npft (initialize_gap (Globals.initial α)) = 13 ∧
      (initialize_gap (Globals.initial α)).pft_vector.map (fun pft => pft.name)
        = ["Sugar maple", "Beech", "Yellow birch", "White ash", "Mt. maple", "Striped maple",
            "Pin cherry", "Choke cherry", "Balsam Fir", "Spruce", "White birch", "Mt. ash",
            "Red maple"] := by
  refine ⟨?_, ?_, ?_⟩
  · simp [initialize_gap, push_pft, classify_pfts, Globals.initial]
    decide
  · simp [npft, initialize_gap, push_pft, classify_pfts, Globals.initial]
  · simp [initialize_gap, push_pft, classify_pfts, Globals.initial]

theorem Plot.birth_some (L : CLib α) (G : Globals α) (hG : G.WellFormed) (p : Plot α)
    (r : Rng) : ∃ p1 r1, p.birth L G r = some (p1, r1) := by
  obtain ⟨id, st, si, r1, hb, -⟩ := Plot.birth_eq L G hG p r
  exact ⟨_, r1, hb⟩

/-- C13: after `initialize_gap` from the initial state the catalog holds the 13
species in insertion order with ids 0..12, `npft() = 13`; the three groups are the
ids of their class in increasing order, [0,1,3,4,5,8,9,11,12], [6,7] and [2,10];
they partition 0..12 and none is empty, so that `Plot::birth` always returns. -/
theorem initialize_gap_catalog (L : CLib α) :
    (initialize_gap (Globals.initial α)).pft_vector.length = 13 ∧
      npft (initialize_gap (Globals.initial α)) = 13 ∧
      (initialize_gap (Globals.initial α)).pft_vector.map (fun pft => pft.id)
        = List.range 13 ∧
      (initialize_gap (Globals.initial α)).shade_tolerant_pfts
        = [0, 1, 3, 4, 5, 8, 9, 11, 12] ∧
      (initialize_gap (Globals.initial α)).cherry_pfts = [6, 7] ∧
      (initialize_gap (Globals.initial α)).birch_pfts = [2, 10] ∧
      (initialize_gap (Globals.initial α)).shade_tolerant_pfts
        = (List.range 13).filter (fun i =>
            ((initialize_gap (Globals.initial α)).pft_vector.map (fun pft => pft.type))[i]?
              = some tree_type.SHADE_TOLERANT) ∧
      (initialize_gap (Globals.initial α)).cherry_pfts
        = (List.range 13).filter (fun i =>
            ((initialize_gap (Globals.initial α)).pft_vector.map (fun pft => pft.type))[i]?
              = some tree_type.CHERRY) ∧
      (initialize_gap (Globals.initial α)).birch_pfts
        = (List.range 13).filter (fun i =>
            ((initialize_gap (Globals.initial α)).pft_vector.map (fun pft => pft.type))[i]?
              = some tree_type.BIRCH) ∧
      ((initialize_gap (Globals.initial α)).shade_tolerant_pfts
          ++ (initialize_gap (Globals.initial α)).cherry_pfts
          ++ (initialize_gap (Globals.initial α)).birch_pfts).Perm (List.range 13) ∧
      (initialize_gap (Globals.initial α)).WellFormed ∧
      (∀ (p : Plot α) (r : Rng),
        ∃ p1 r1, p.birth L (initialize_gap (Globals.initial α)) r = some (p1, r1)) := by
  obtain ⟨h1, h2, h3⟩ := initialize_gap_groups α
  obtain ⟨hid, hn, -⟩ := initialize_gap_ids α
  have hlen : (initialize_gap (Globals.initial α)).pft_vector.length = 13 := by
    have := congrArg List.length hid
    simpa using this
  refine ⟨hlen, hn, hid, h1, h2, h3, ?_, ?_, ?_, ?_, initialize_gap_wellFormed α,
    fun p r => Plot.birth_some L _ (initialize_gap_wellFormed α) p r⟩
  · rw [h1, initialize_gap_types α]; decide
  · rw [h2, initialize_gap_types α]; decide
  · rw [h3, initialize_gap_types α]; decide
  · rw [h1, h2, h3]; decide

end CatalogTheorems

/-! ## Light response and shading -/

section LightTheorems
variable {α : Type} [LinearOrderedField α]

theorem Tree.r_light_le_of_sla_le (L : CLib α) (hmono : Monotone L.exp) (t1 t2 : Tree α)
    (hty : t1.pft.type = t2.pft.type) (hs : t1.sla ≤ t2.sla) :
    t2.r_light L ≤ t1.r_light L := by
  have hk : (-K_EXT : α) ≤ 0 := by simp only [K_EXT]; norm_num
  have hal : L.exp (-K_EXT * t2.sla) ≤ L.exp (-K_EXT * t1.sla) :=
    hmono (mul_le_mul_of_nonpos_left hs hk)
  unfold Tree.r_light
  rw [← hty]
  split
  · refine max_le_max (sub_le_sub_left (hmono ?_) 1) le_rfl
    nlinarith
  · refine max_le_max (mul_le_mul_of_nonneg_left (sub_le_sub_left (hmono ?_) 1) (by norm_num))
      le_rfl
    nlinarith

theorem Tree.r_light_unshaded (L : CLib α) (hmono : Monotone L.exp) (h0 : L.exp 0 = 1)
    (t : Tree α) (hs : t.sla = 0) :
    t.r_light L = if t.pft.type = tree_type.SHADE_TOLERANT then 1 - L.exp (-4.64 * 0.95)
      else 2.24 * (1 - L.exp (-1.136 * 0.92)) := by
  have ha : L.exp (-4.64 * 0.95) ≤ 1 := by
    rw [← h0]; exact hmono (by norm_num)
  have hb : L.exp (-1.136 * 0.92) ≤ 1 := by
    rw [← h0]; exact hmono (by norm_num)
  unfold Tree.r_light
  rw [hs, mul_zero, h0]
  split
  · show max (1 - L.exp (-4.64 * (1 - 0.05))) 0 = 1 - L.exp (-4.64 * 0.95)
    rw [show (1 : α) - 0.05 = 0.95 by norm_num]
    exact max_eq_left (sub_nonneg.2 ha)
  · show max (2.24 * (1 - L.exp (-1.136 * (1 - 0.08)))) 0 = 2.24 * (1 - L.exp (-1.136 * 0.92))
    rw [show (1 : α) - 0.08 = 0.92 by norm_num]
    exact max_eq_left (mul_nonneg (by norm_num) (sub_nonneg.2 hb))

/-- C20: for a monotone `exp` with `exp 0 = 1` (as the exponential is), `r_light` is
non-increasing in `sla` within each tolerance class, and for `sla ≥ 0` it is at
most its unshaded value, `1 − exp(−4.64·0.95)` for a shade-tolerant species and
`2.24·(1 − exp(−1.136·0.92))` for the others. -/
theorem r_light_antitone (L : CLib α) (hmono : Monotone L.exp) (h0 : L.exp 0 = 1)
    (t1 t2 : Tree α) (hty : t1.pft.type = t2.pft.type) (hs : t1.sla ≤ t2.sla) :
    t2.r_light L ≤ t1.r_light L ∧
      (0 ≤ t2.sla →
        t2.r_light L ≤ (t2.set_sla 0).r_light L ∧
        (t2.set_sla 0).r_light L
          = if t2.pft.type = tree_type.SHADE_TOLERANT then 1 - L.exp (-4.64 * 0.95)
            else 2.24 * (1 - L.exp (-1.136 * 0.92))) :=
  ⟨Tree.r_light_le_of_sla_le L hmono t1 t2 hty hs, fun hpos =>
    ⟨Tree.r_light_le_of_sla_le L hmono (t2.set_sla 0) t2 rfl hpos,
      Tree.r_light_unshaded L hmono h0 (t2.set_sla 0) rfl⟩⟩

end LightTheorems

/-- Witness of C20: over the reals with the real exponential, a Sugar maple under
the shadings 0 and 6000. -/
theorem r_light_antitone_witness :
    Monotone (CLib.mk Real.exp 2147483647).exp ∧ (CLib.mk Real.exp 2147483647).exp 0 = 1 ∧
      (maple_tree ℝ 0).pft.type = (maple_tree ℝ 6000).pft.type ∧
      (maple_tree ℝ 0).sla ≤ (maple_tree ℝ 6000).sla ∧
      (maple_tree ℝ 6000).r_light (CLib.mk Real.exp 2147483647)
        ≤ (maple_tree ℝ 0).r_light (CLib.mk Real.exp 2147483647) ∧
      (0 ≤ (maple_tree ℝ 6000).sla →
        (maple_tree ℝ 6000).r_light (CLib.mk Real.exp 2147483647)
          ≤ ((maple_tree ℝ 6000).set_sla 0).r_light (CLib.mk Real.exp 2147483647) ∧
        ((maple_tree ℝ 6000).set_sla 0).r_light (CLib.mk Real.exp 2147483647)
          = if (maple_tree ℝ 6000).pft.type = tree_type.SHADE_TOLERANT
            then 1 - (CLib.mk Real.exp 2147483647).exp (-4.64 * 0.95)
            else 2.24 * (1 - (CLib.mk Real.exp 2147483647).exp (-1.136 * 0.92))) :=
  ⟨Real.exp_monotone, Real.exp_zero, rfl, by norm_num [maple_tree],
    r_light_antitone (CLib.mk Real.exp 2147483647) Real.exp_monotone Real.exp_zero
      (maple_tree ℝ 0) (maple_tree ℝ 6000) rfl (by norm_num [maple_tree])⟩

/-! ## Plot.kill as two filters -/

section KillRefinement
variable {α : Type} [LinearOrderedField α]

theorem iter_after_erase {β : Type} (l : List β) (it : ℕ) (h : it < l.length) :
    iter_inc (list_erase l it).1 (iter_dec (list_erase l it).1 (list_erase l it).2) = it := by
  simp only [list_erase, iter_inc, iter_dec, List.length_eraseIdx, if_pos h]
  by_cases h0 : it = 0
  · subst h0; simp
  · rw [if_neg h0, if_neg (by omega)]; omega

theorem iter_after_keep {β : Type} (l : List β) (it : ℕ) (h : it < l.length) :
    iter_inc l it = it + 1 := by
  simp only [iter_inc]
  rw [if_neg (by omega)]

theorem take_eraseIdx_self {β : Type} (l : List β) (it : ℕ) (h : it < l.length) :
    (l.eraseIdx it).take it = l.take it := by
  rw [List.eraseIdx_eq_take_drop_succ]
  exact List.take_left' (by simp; omega)

theorem drop_eraseIdx_self {β : Type} (l : List β) (it : ℕ) (h : it < l.length) :
    (l.eraseIdx it).drop it = l.drop (it + 1) := by
  rw [List.eraseIdx_eq_take_drop_succ]
  exact List.drop_left' (by simp; omega)

theorem take_succ_eq_append {β : Type} (l : List β) (it : ℕ) (h : it < l.length) :
    l.take (it + 1) = l.take it ++ [l[it]] := by
  rw [List.take_succ, List.getElem?_eq_getElem h]
  rfl

theorem kill_first_eq (L : CLib α) (trees : List (Tree α)) (it : ℕ) (r : Rng) :
    kill_first L trees it r
      = (trees.take it ++ (mortality_pass1 L (trees.drop it) r).1,
          (mortality_pass1 L (trees.drop it) r).2) := by
  induction trees, it, r using kill_first.induct L with
  | case1 trees it r hit tree p hdie trees1 it1 ih =>
    have hdie1 : (r.rand.1 : α) / (L.RAND_MAX : α)
        < 1 - (1 - 4 / trees[it].pft.age_max) ^ trees[it].tree_age := hdie
    have hpos : iter_inc trees1 it1 = it := iter_after_erase trees it hit
    have htake : trees1.take it = trees.take it := take_eraseIdx_self trees it hit
    have hdrop : trees1.drop it = trees.drop (it + 1) := drop_eraseIdx_self trees it hit
    rw [kill_first, dif_pos hit]
    simp only [hdie, if_true]
    refine ih.trans ?_
    rw [hpos, htake, hdrop, List.drop_eq_getElem_cons hit]
    simp only [mortality_pass1, if_pos hdie1]
  | case2 trees it r hit tree p hlive ih =>
    have hlive1 : ¬ (r.rand.1 : α) / (L.RAND_MAX : α)
        < 1 - (1 - 4 / trees[it].pft.age_max) ^ trees[it].tree_age := hlive
    rw [kill_first, dif_pos hit]
    simp only [hlive, if_false]
    refine ih.trans ?_
    rw [iter_after_keep trees it hit, take_succ_eq_append trees it hit,
      List.drop_eq_getElem_cons hit]
    simp only [mortality_pass1, if_neg hlive1, List.append_assoc, List.singleton_append]
  | case3 trees it r hit =>
    rw [kill_first, dif_neg hit, List.take_of_length_le (not_lt.1 hit),
      List.drop_of_length_le (not_lt.1 hit)]
    simp [mortality_pass1]

theorem kill_second_eq (L : CLib α) (trees : List (Tree α)) (it : ℕ) (r : Rng) :
    kill_second L trees it r
      = (trees.take it ++ (mortality_pass2 L (trees.drop it) r).1,
          (mortality_pass2 L (trees.drop it) r).2) := by
  induction trees, it, r using kill_second.induct L with
  | case1 trees it r hit tree hstress hdie trees1 it1 ih =>
    have hstress1 : trees[it].d_change < 0.01 := hstress
    have hpos : iter_inc trees1 it1 = it := iter_after_erase trees it hit
    have htake : trees1.take it = trees.take it := take_eraseIdx_self trees it hit
    have hdrop : trees1.drop it = trees.drop (it + 1) := drop_eraseIdx_self trees it hit
    rw [kill_second, dif_pos hit]
    simp only [hstress, hdie, if_true]
    refine ih.trans ?_
    rw [hpos, htake, hdrop, List.drop_eq_getElem_cons hit]
    simp only [mortality_pass2, if_pos hstress1, if_pos hdie]
  | case2 trees it r hit tree hstress hlive ih =>
    have hstress1 : trees[it].d_change < 0.01 := hstress
    rw [kill_second, dif_pos hit]
    simp only [hstress, hlive, if_true, if_false]
    refine ih.trans ?_
    rw [iter_after_keep trees it hit, take_succ_eq_append trees it hit,
      List.drop_eq_getElem_cons hit]
    simp only [mortality_pass2, if_pos hstress1, if_neg hlive, List.append_assoc,
      List.singleton_append]
  | case3 trees it r hit tree hfine ih =>
    have hfine1 : ¬ trees[it].d_change < 0.01 := hfine
    rw [kill_second, dif_pos hit]
    simp only [hfine, if_false]
    refine ih.trans ?_
    rw [iter_after_keep trees it hit, take_succ_eq_append trees it hit,
      List.drop_eq_getElem_cons hit]
    simp only [mortality_pass2, if_neg hfine1, List.append_assoc, List.singleton_append]
  | case4 trees it r hit =>
    rw [kill_second, dif_neg hit, List.take_of_length_le (not_lt.1 hit),
      List.drop_of_length_le (not_lt.1 hit)]
    simp [mortality_pass2]

theorem Plot.kill_eq_spec (L : CLib α) (p : Plot α) (r : Rng) :
    p.kill L r = kill_spec L p r := by
  simp only [Plot.kill, kill_spec, kill_first_eq, kill_second_eq, List.take_zero,
    List.drop_zero, List.nil_append]

theorem mortality_pass1_rng (L : CLib α) (trees : List (Tree α)) (r : Rng) :
    (mortality_pass1 L trees r).2 = { r with pos := r.pos + trees.length } := by
  induction trees generalizing r with
  | nil => rfl
  | cons t ts ih =>
    simp only [mortality_pass1]
    split
    · rw [ih]; simp only [Rng.rand, List.length_cons]; congr 1; omega
    · rw [ih]; simp only [Rng.rand, List.length_cons]; congr 1; omega

theorem mortality_pass2_rng (L : CLib α) (trees : List (Tree α)) (r : Rng) :
    (mortality_pass2 L trees r).2 = { r with pos := r.pos + stressed_count trees } := by
  induction trees generalizing r with
  | nil => rfl
  | cons t ts ih =>
    by_cases hs : t.d_change < 0.01
    · simp only [mortality_pass2, if_pos hs]
      have hc : stressed_count (t :: ts) = stressed_count ts + 1 := by
        simp [stressed_count, List.filter_cons, hs]
      split
      · rw [ih, hc]; simp only [Rng.rand]; congr 1; omega
      · rw [ih, hc]; simp only [Rng.rand]; congr 1; omega
    · simp only [mortality_pass2, if_neg hs]
      have hc : stressed_count (t :: ts) = stressed_count ts := by
        simp [stressed_count, List.filter_cons, hs]
      rw [ih, hc]

/-- C16: with the draws made explicit, `Plot::kill` is the two filters of the
specification run one after the other, each visiting every tree present at its
start once, in list order: the first loop is `mortality_pass1` and takes one draw
per tree, the second loop is `mortality_pass2` on any list (so on the survivors of
the first) and takes one draw per tree with `d_change < 0.01`. -/
theorem kill_refines_two_filters (L : CLib α) (p : Plot α) (r : Rng) :
    p.kill L r = kill_spec L p r ∧
      kill_first L p.trees 0 r = mortality_pass1 L p.trees r ∧
      (kill_first L p.trees 0 r).2 = { r with pos := r.pos + p.trees.length } ∧
      (∀ (trees : List (Tree α)) (r1 : Rng),
        kill_second L trees 0 r1 = mortality_pass2 L trees r1 ∧
        (kill_second L trees 0 r1).2 = { r1 with pos := r1.pos + stressed_count trees }) := by
  have h1 : ∀ (trees : List (Tree α)) (r1 : Rng),
      kill_first L trees 0 r1 = mortality_pass1 L trees r1 := by
    intro trees r1
    rw [kill_first_eq]; simp
  have h2 : ∀ (trees : List (Tree α)) (r1 : Rng),
      kill_second L trees 0 r1 = mortality_pass2 L trees r1 := by
    intro trees r1
    rw [kill_second_eq]; simp
  refine ⟨Plot.kill_eq_spec L p r, h1 _ _, ?_, fun trees r1 => ⟨h2 _ _, ?_⟩⟩
  · rw [h1, mortality_pass1_rng]
  · rw [h2, mortality_pass2_rng]

end KillRefinement

/-! ## Trees that mortality cannot remove -/

section SurvivalTheorems
variable {α : Type} [LinearOrderedField α]

theorem draw_nonneg (L : CLib α) (r : Rng) : (0 : α) ≤ (r.rand.1 : α) / (L.RAND_MAX : α) :=
  div_nonneg (Nat.cast_nonneg _) (Nat.cast_nonneg _)

theorem Tree.newborn_unkillable {G : Globals α} {t : Tree α} (h : t.newborn G) :
    t.unkillable := by
  refine ⟨h.2.1, ?_⟩
  rw [h.2.2.1]; norm_num

theorem mortality_pass1_unkillable (L : CLib α) (trees : List (Tree α)) (r : Rng) :
    (mortality_pass1 L trees r).1.filter (fun t => decide t.unkillable)
      = trees.filter (fun t => decide t.unkillable) := by
  induction trees generalizing r with
  | nil => rfl
  | cons t ts ih =>
    simp only [mortality_pass1]
    by_cases hU : t.unkillable
    · have hno : ¬ (r.rand.1 : α) / (L.RAND_MAX : α)
          < 1 - (1 - 4 / t.pft.age_max) ^ t.tree_age := by
        rw [hU.1, pow_zero, sub_self]
        exact not_lt.2 (draw_nonneg L r)
      rw [if_neg hno]
      simp only [List.filter_cons, hU, decide_True, if_true, ih]
    · split
      · simp only [List.filter_cons, hU, decide_False, ih]
        rfl
      · simp only [List.filter_cons, hU, decide_False, ih]

theorem mortality_pass2_unkillable (L : CLib α) (trees : List (Tree α)) (r : Rng) :
    (mortality_pass2 L trees r).1.filter (fun t => decide t.unkillable)
      = trees.filter (fun t => decide t.unkillable) := by
  induction trees generalizing r with
  | nil => rfl
  | cons t ts ih =>
    simp only [mortality_pass2]
    by_cases hU : t.unkillable
    · rw [if_neg (not_lt.2 hU.2)]
      simp only [List.filter_cons, hU, decide_True, if_true, ih]
    · split
      · split
        · simp only [List.filter_cons, hU, decide_False, ih]
          rfl
        · simp only [List.filter_cons, hU, decide_False, ih]
      · simp only [List.filter_cons, hU, decide_False, ih]

theorem Plot.kill_unkillable (L : CLib α) (p : Plot α) (r : Rng) :
    (p.kill L r).1.trees.filter (fun t => decide t.unkillable)
      = p.trees.filter (fun t => decide t.unkillable) := by
  rw [Plot.kill_eq_spec]
  simp only [kill_spec, mortality_pass2_unkillable, mortality_pass1_unkillable]

theorem Plot.kill_all_unkillable (L : CLib α) (p : Plot α) (r : Rng)
    (h : ∀ t ∈ p.trees, t.unkillable) : (p.kill L r).1.trees = p.trees := by
  have hfull : p.trees.filter (fun t => decide t.unkillable) = p.trees :=
    List.filter_eq_self.2 (fun t ht => decide_eq_true (h t ht))
  have hsub : (p.kill L r).1.trees.Sublist p.trees :=
    (kill_second_sublist L _ 0 _).trans (kill_first_sublist L p.trees 0 r)
  have hk := Plot.kill_unkillable L p r
  rw [hfull] at hk
  have hle : p.trees.length ≤ (p.kill L r).1.trees.length := by
    calc p.trees.length
        = ((p.kill L r).1.trees.filter (fun t => decide t.unkillable)).length := by rw [hk]
      _ ≤ (p.kill L r).1.trees.length := List.length_filter_le _ _
  exact hsub.eq_of_length_le hle

theorem Plot.growth_length (L : CLib α) (p : Plot α) :
    (p.growth L).trees.length = p.trees.length := by
  rw [Plot.growth_eq]; simp

theorem Plot.kill_fst_eq (L : CLib α) (p : Plot α) (r : Rng) :
    (p.kill L r).1 = { p with trees := (p.kill L r).1.trees } := rfl

theorem Plot.growth_pft (L : CLib α) (p : Plot α) :
    (p.growth L).trees.map (fun t => (t.pft_id, t.pft.type))
      = p.trees.map (fun t => (t.pft_id, t.pft.type)) := by
  rw [Plot.growth_eq]
  simp only [List.map_map]
  rfl

/-- The first year of a fresh plot, for a well-formed catalog: `birth` makes the
saplings `st` of one shade-tolerant species and the CHERRY saplings `ch`, `kill`
removes none of them, and the plot after `advance` is their growth. -/
theorem Plot.first_year (L : CLib α) (G : Globals α) (hG : G.WellFormed) (r : Rng) :
    ∃ (id : ℕ) (st ch : List (Tree α)) (r1 r2 : Rng),
      id ∈ G.shade_tolerant_pfts ∧
      (Plot.new : Plot α).birth L G r
        = some ({ trees := st ++ ch, weight := 0, basal_area := 0 }, r1) ∧
      st.length ≤ 2 ∧
      (∀ t ∈ st, t.pft_id = id ∧ t.pft.type = tree_type.SHADE_TOLERANT ∧ t.newborn G) ∧
      60 ≤ ch.length ∧ ch.length ≤ 75 ∧
      (∀ t ∈ ch, t.pft_id ∈ G.cherry_pfts ∧ t.pft.type = tree_type.CHERRY ∧ t.newborn G) ∧
      (Plot.new : Plot α).advance L G r
        = some (({ trees := st ++ ch, weight := 0, basal_area := 0 } : Plot α).growth L, r2) := by
  have hw : (Plot.new : Plot α).weight < CHERRY_CUTOFF := by
    simp only [Plot.new, CHERRY_CUTOFF]; norm_num
  obtain ⟨id, st, ch, r1, hb, hid, hst, hall, hch, -, -⟩ := Plot.birth_eq L G hG Plot.new r
  obtain ⟨h60, h75, hchall⟩ := hch hw
  have hb1 : (Plot.new : Plot α).birth L G r
      = some ({ trees := st ++ ch, weight := 0, basal_area := 0 }, r1) := by
    rw [hb]; simp [Plot.new]
  have hun : ∀ t ∈ ({ trees := st ++ ch, weight := 0, basal_area := 0 } : Plot α).trees,
      t.unkillable := by
    intro t ht
    rcases List.mem_append.1 ht with h | h
    · exact Tree.newborn_unkillable (hall t h).2.2
    · exact Tree.newborn_unkillable (hchall t h).2.2
  refine ⟨id, st, ch, r1,
    (({ trees := st ++ ch, weight := 0, basal_area := 0 } : Plot α).kill L r1).2,
    hid, hb1, hst, hall, h60, h75, hchall, ?_⟩
  simp only [Plot.advance, hb1]
  rw [Plot.kill_fst_eq, Plot.kill_all_unkillable L _ r1 hun]

/-- C19: `Plot::kill` never removes a tree of age 0 with `d_change ≥ 0.01`, whatever
the draws are; so every tree that `Plot::birth` creates is still there after the
`Plot::kill` of the same year, and the first `Plot::advance` of a fresh plot leaves
between 60 and 77 trees (for a catalog whose three groups are not empty and hold
ids of their class, as after `initialize_gap`). -/
theorem newborn_trees_survive (L : CLib α) (G : Globals α) (hG : G.WellFormed) (p : Plot α)
    (r : Rng) :
    ((p.kill L r).1.trees.filter (fun t => decide t.unkillable)
        = p.trees.filter (fun t => decide t.unkillable)) ∧
      (∀ t ∈ p.trees, t.unkillable → t ∈ (p.kill L r).1.trees) ∧
      (∃ (p1 : Plot α) (r1 : Rng) (new : List (Tree α)),
        p.birth L G r = some (p1, r1) ∧ p1.trees = p.trees ++ new ∧
        (∀ t ∈ new, t.tree_age = 0 ∧ t.d_change = 1) ∧
        new.Sublist (p1.kill L r1).1.trees) ∧
      (∃ (p2 : Plot α) (r2 : Rng),
        (Plot.new : Plot α).advance L G r = some (p2, r2) ∧
        60 ≤ p2.trees.length ∧ p2.trees.length ≤ 77) := by
  refine ⟨Plot.kill_unkillable L p r, ?_, ?_, ?_⟩
  · intro t ht hU
    have hmem : t ∈ p.trees.filter (fun t => decide t.unkillable) :=
      List.mem_filter.2 ⟨ht, decide_eq_true hU⟩
    rw [← Plot.kill_unkillable L p r] at hmem
    exact (List.mem_filter.1 hmem).1
  · obtain ⟨id, st, si, r1, hb, -, -, hst, hch, hbi, hnil⟩ := Plot.birth_eq L G hG p r
    have hnew : ∀ t ∈ st ++ si, t.newborn G := by
      intro t ht
      rcases List.mem_append.1 ht with h | h
      · exact (hst t h).2.2
      · by_cases hc : p.weight < CHERRY_CUTOFF
        · exact ((hch hc).2.2 t h).2.2
        · by_cases hb1 : p.weight < BIRCH_CUTOFF
          · exact ((hbi (not_lt.1 hc) hb1).2 t h).2.2
          · rw [hnil (not_lt.1 hb1)] at h
            exact absurd h (List.not_mem_nil t)
    refine ⟨_, r1, st ++ si, hb, by simp, fun t ht => ⟨(hnew t ht).2.1, (hnew t ht).2.2.1⟩, ?_⟩
    have hfull : (st ++ si).filter (fun t => decide t.unkillable) = st ++ si :=
      List.filter_eq_self.2
        (fun t ht => decide_eq_true (Tree.newborn_unkillable (hnew t ht)))
    have hk := Plot.kill_unkillable L
      ({ p with trees := p.trees ++ st ++ si } : Plot α) r1
    have hsplit : (p.trees ++ st ++ si).filter (fun t => decide t.unkillable)
        = p.trees.filter (fun t => decide t.unkillable) ++ (st ++ si) := by
      rw [List.append_assoc, List.filter_append, hfull]
    rw [show ({ p with trees := p.trees ++ st ++ si } : Plot α).trees = p.trees ++ st ++ si
      from rfl, hsplit] at hk
    have hin : (st ++ si).Sublist
        ((({ p with trees := p.trees ++ st ++ si } : Plot α).kill L r1).1.trees.filter
          (fun t => decide t.unkillable)) := by
      rw [hk]; exact List.sublist_append_right _ _
    exact hin.trans (List.filter_sublist _)
  · obtain ⟨id, st, ch, r1, r2, -, -, hst, -, h60, h75, -, hadv⟩ := Plot.first_year L G hG r
    refine ⟨_, r2, hadv, ?_, ?_⟩
    · rw [Plot.growth_length]; simp only [List.length_append]; omega
    · rw [Plot.growth_length]; simp only [List.length_append]; omega

end SurvivalTheorems

/-! ## The first year of a plot -/

section FirstYearTheorems
variable {α : Type} [LinearOrderedField α]

/-- What `Plot::birth` does on a plot of weight below `CHERRY_CUTOFF` when the
shade-tolerant and CHERRY groups are not empty and hold ids of their class; the
BIRCH group is not read. -/
theorem Plot.birth_gap_eq (L : CLib α) (G : Globals α)
    (hST : group_ok G G.shade_tolerant_pfts tree_type.SHADE_TOLERANT)
    (hCH : group_ok G G.cherry_pfts tree_type.CHERRY) (p : Plot α) (r : Rng)
    (hw : p.weight < CHERRY_CUTOFF) :
    ∃ (id : ℕ) (st ch : List (Tree α)) (r1 : Rng),
      p.birth L G r = some ({ p with trees := p.trees ++ st ++ ch }, r1) ∧
      id ∈ G.shade_tolerant_pfts ∧ st.length ≤ 2 ∧
      (∀ t ∈ st, t.pft_id = id ∧ t.pft.type = tree_type.SHADE_TOLERANT ∧ t.newborn G) ∧
      60 ≤ ch.length ∧ ch.length ≤ 75 ∧
      (∀ t ∈ ch, t.pft_id ∈ G.cherry_pfts ∧ t.pft.type = tree_type.CHERRY ∧ t.newborn G) := by
  have hlen : 0 < G.shade_tolerant_pfts.length := List.length_pos.2 hST.1
  have hlt : r.rand.1 % G.shade_tolerant_pfts.length < G.shade_tolerant_pfts.length :=
    Nat.mod_lt _ hlen
  have hmem : G.shade_tolerant_pfts[r.rand.1 % G.shade_tolerant_pfts.length]
      ∈ G.shade_tolerant_pfts := List.getElem_mem _
  obtain ⟨pft, hpft, hty⟩ := group_ok_lookup hST hmem
  obtain ⟨st, r3, hst, hstl, hstall⟩ := birth_saplings_eq L G _ pft hpft
    (r.rand.2.rand.1 % 3) p.trees r.rand.2.rand.2
  obtain ⟨ch, r5, hch, hchl, hchall⟩ := birth_from_group_eq L G G.cherry_pfts
    tree_type.CHERRY hCH (60 + r3.rand.1 % 16) (p.trees ++ st) r3.rand.2
  have h3 := Nat.mod_lt r.rand.2.rand.1 (show 0 < 3 by decide)
  have h16 := Nat.mod_lt r3.rand.1 (show 0 < 16 by decide)
  refine ⟨_, st, ch, r5, ?_, hmem, by omega, ?_, by omega, by omega, hchall⟩
  · simp only [Plot.birth, if_neg (Nat.pos_iff_ne_zero.1 hlen),
      List.getElem?_eq_getElem hlt, hst, if_pos hw, hch]
  · intro t ht
    obtain ⟨h1, h2, h3⟩ := hstall t ht
    exact ⟨h1, by rw [h2]; exact hty, h3⟩

/-- C12, amended: with a catalog whose shade-tolerant group is the single species
`s` and whose CHERRY group is not empty (both holding ids of catalog species of
their class), the first `Plot::advance` of an empty plot recruits 0 to 2 trees of
`s` and 60 to 75 trees of CHERRY species, each of age 0 and with
`d_change = 1 > 0.01` when created, and leaves all of them: 60 to 77 trees, at
most 2 of them shade tolerant. -/
theorem first_year_one_shade_tolerant (L : CLib α) (G : Globals α) (s : ℕ)
    (hs : G.shade_tolerant_pfts = [s])
    (hST : group_ok G G.shade_tolerant_pfts tree_type.SHADE_TOLERANT)
    (hCH : group_ok G G.cherry_pfts tree_type.CHERRY) (r : Rng) :
    ∃ (st ch : List (Tree α)) (p1 p2 : Plot α) (r1 r2 : Rng),
      (Plot.new : Plot α).birth L G r = some (p1, r1) ∧ p1.trees = st ++ ch ∧
      st.length ≤ 2 ∧ (∀ t ∈ st, t.pft_id = s ∧ t.pft.type = tree_type.SHADE_TOLERANT) ∧
      60 ≤ ch.length ∧ ch.length ≤ 75 ∧
      (∀ t ∈ ch, t.pft_id ∈ G.cherry_pfts ∧ t.pft.type = tree_type.CHERRY) ∧
      (∀ t ∈ p1.trees, t.tree_age = 0 ∧ t.d_change = 1 ∧ (0.01 : α) < t.d_change) ∧
      (Plot.new : Plot α).advance L G r = some (p2, r2) ∧
      60 ≤ p2.trees.length ∧ p2.trees.length ≤ 77 ∧
      p2.trees.map (fun t => (t.pft_id, t.pft.type))
        = p1.trees.map (fun t => (t.pft_id, t.pft.type)) ∧
      (p2.trees.map (fun t => (t.pft_id, t.pft.type))).countP
        (fun x => x.2 = tree_type.SHADE_TOLERANT) ≤ 2 := by
  have hw : (Plot.new : Plot α).weight < CHERRY_CUTOFF := by
    simp only [Plot.new, CHERRY_CUTOFF]; norm_num
  obtain ⟨id, st, ch, r1, hb0, hid, hst, hall, h60, h75, hchall⟩ :=
    Plot.birth_gap_eq L G hST hCH Plot.new r hw
  have hb : (Plot.new : Plot α).birth L G r
      = some ({ trees := st ++ ch, weight := 0, basal_area := 0 }, r1) := by
    rw [hb0]; simp [Plot.new]
  have hids : id = s := by
    rw [hs] at hid; exact List.mem_singleton.1 hid
  have hborn : ∀ t ∈ st ++ ch, t.newborn G := by
    intro t ht
    rcases List.mem_append.1 ht with h | h
    · exact (hall t h).2.2
    · exact (hchall t h).2.2
  have hnew : ∀ t ∈ st ++ ch, t.tree_age = 0 ∧ t.d_change = 1 ∧ (0.01 : α) < t.d_change := by
    intro t ht
    have hn := hborn t ht
    exact ⟨hn.2.1, hn.2.2.1, by rw [hn.2.2.1]; norm_num⟩
  have hun : ∀ t ∈ ({ trees := st ++ ch, weight := 0, basal_area := 0 } : Plot α).trees,
      t.unkillable := fun t ht => Tree.newborn_unkillable (hborn t ht)
  have hadv : (Plot.new : Plot α).advance L G r
      = some (({ trees := st ++ ch, weight := 0, basal_area := 0 } : Plot α).growth L,
          (({ trees := st ++ ch, weight := 0, basal_area := 0 } : Plot α).kill L r1).2) := by
    simp only [Plot.advance, hb]
    rw [Plot.kill_fst_eq, Plot.kill_all_unkillable L _ r1 hun]
  have hcount : ((st ++ ch).map (fun t => (t.pft_id, t.pft.type))).countP
      (fun x => x.2 = tree_type.SHADE_TOLERANT) ≤ 2 := by
    rw [List.map_append, List.countP_append]
    have h1 : (st.map (fun t => (t.pft_id, t.pft.type))).countP
        (fun x => x.2 = tree_type.SHADE_TOLERANT) ≤ st.length := by
      calc _ ≤ (st.map (fun t => (t.pft_id, t.pft.type))).length := List.countP_le_length _
        _ = st.length := List.length_map _ _
    have h2 : (ch.map (fun t => (t.pft_id, t.pft.type))).countP
        (fun x => x.2 = tree_type.SHADE_TOLERANT) = 0 := by
      rw [List.countP_eq_zero]
      intro x hx
      obtain ⟨t, ht, rfl⟩ := List.mem_map.1 hx
      simp [(hchall t ht).2.1]
    omega
  refine ⟨st, ch, _, _, r1, _, hb, rfl, hst,
    fun t ht => ⟨by rw [(hall t ht).1, hids], (hall t ht).2.1⟩, h60, h75,
    fun t ht => ⟨(hchall t ht).1, (hchall t ht).2.1⟩, hnew, hadv, ?_, ?_,
    Plot.growth_pft L _, ?_⟩
  · rw [Plot.growth_length]; simp only [List.length_append]; omega
  · rw [Plot.growth_length]; simp only [List.length_append]; omega
  · rw [Plot.growth_pft]; exact hcount

end FirstYearTheorems

/-- C12 as stated fails: with the catalog restricted to Sugar maple the CHERRY
group is empty, and the first `Plot::advance` of an empty plot (weight 0, below
`CHERRY_CUTOFF`) has no result: `Plot::birth` computes
`rand() % cherry_pfts.size()` with size 0. -/
theorem single_species_first_year_fails :
    catalog_single.shade_tolerant_pfts = [0] ∧ catalog_single.cherry_pfts = [] ∧
      catalog_single.birch_pfts = [] ∧ catalog_single.pft_vector.length = 1 ∧
      (Plot.new : Plot ℚ).birth clib_rat catalog_single rng_linear = none ∧
      (Plot.new : Plot ℚ).advance clib_rat catalog_single rng_linear = none :=
  ⟨by decide, by decide, by decide, by decide, by rfl, by rfl⟩

/-- Witness of C12 (amended): the catalog Sugar maple, Pin cherry, whose BIRCH
group is empty. -/
theorem first_year_one_shade_tolerant_witness :
    catalog_two.shade_tolerant_pfts = [0] ∧ catalog_two.birch_pfts = [] ∧
      group_ok catalog_two catalog_two.shade_tolerant_pfts tree_type.SHADE_TOLERANT ∧
      group_ok catalog_two catalog_two.cherry_pfts tree_type.CHERRY ∧
      ∃ (st ch : List (Tree ℚ)) (p1 p2 : Plot ℚ) (r1 r2 : Rng),
        (Plot.new : Plot ℚ).birth clib_rat catalog_two rng_linear = some (p1, r1) ∧
        p1.trees = st ++ ch ∧ st.length ≤ 2 ∧
        (∀ t ∈ st, t.pft_id = 0 ∧ t.pft.type = tree_type.SHADE_TOLERANT) ∧
        60 ≤ ch.length ∧ ch.length ≤ 75 ∧
        (∀ t ∈ ch, t.pft_id ∈ catalog_two.cherry_pfts ∧ t.pft.type = tree_type.CHERRY) ∧
        (∀ t ∈ p1.trees, t.tree_age = 0 ∧ t.d_change = 1 ∧ (0.01 : ℚ) < t.d_change) ∧
        (Plot.new : Plot ℚ).advance clib_rat catalog_two rng_linear = some (p2, r2) ∧
        60 ≤ p2.trees.length ∧ p2.trees.length ≤ 77 ∧
        p2.trees.map (fun t => (t.pft_id, t.pft.type))
          = p1.trees.map (fun t => (t.pft_id, t.pft.type)) ∧
        (p2.trees.map (fun t => (t.pft_id, t.pft.type))).countP
          (fun x => x.2 = tree_type.SHADE_TOLERANT) ≤ 2 :=
  ⟨by decide, by decide, ⟨by decide, by decide⟩, ⟨by decide, by decide⟩,
    first_year_one_shade_tolerant clib_rat catalog_two 0 (by decide)
      ⟨by decide, by decide⟩ ⟨by decide, by decide⟩ rng_linear⟩

/-- Witness of C19: the catalog of `initialize_gap` and an empty plot. -/
theorem newborn_trees_survive_witness :
    catalog_rat.WellFormed ∧
      (((plot_rat 0).kill clib_rat rng_linear).1.trees.filter (fun t => decide t.unkillable)
          = (plot_rat 0).trees.filter (fun t => decide t.unkillable)) ∧
      (∀ t ∈ (plot_rat 0).trees, t.unkillable →
        t ∈ ((plot_rat 0).kill clib_rat rng_linear).1.trees) ∧
      (∃ (p1 : Plot ℚ) (r1 : Rng) (new : List (Tree ℚ)),
        (plot_rat 0).birth clib_rat catalog_rat rng_linear = some (p1, r1) ∧
        p1.trees = (plot_rat 0).trees ++ new ∧
        (∀ t ∈ new, t.tree_age = 0 ∧ t.d_change = 1) ∧
        new.Sublist (p1.kill clib_rat r1).1.trees) ∧
      (∃ (p2 : Plot ℚ) (r2 : Rng),
        (Plot.new : Plot ℚ).advance clib_rat catalog_rat rng_linear = some (p2, r2) ∧
        60 ≤ p2.trees.length ∧ p2.trees.length ≤ 77) :=
  ⟨catalog_rat_wellFormed,
    newborn_trees_survive clib_rat catalog_rat catalog_rat_wellFormed (plot_rat 0) rng_linear⟩

/-! ## Plot.growth and the order of the trees -/

section OrderTheorems
variable {α : Type} [LinearOrderedField α]

theorem overtopping_weight_perm {l1 l2 : List (Tree α)} (h : l1.Perm l2) (t : Tree α) :
    overtopping_weight l1 t = overtopping_weight l2 t := by
  unfold overtopping_weight
  exact ((h.filter _).map _).sum_eq

/-- C18: `Plot::growth` does not depend on the order of the trees: if the tree list
of `q` is a permutation of the tree list of `p`, every tree grows in `q` exactly as
it grows in `p` (same `sla`, hence same `d_change`, `d`, `h`, `w`, `ba`, age), the
lists after growth are permutations of each other, and the new `weight` and
`basal_area` are equal. -/
theorem growth_order_independent (L : CLib α) (p q : Plot α) (hperm : p.trees.Perm q.trees) :
    (p.growth L).trees
        = p.trees.map (fun t => (t.set_sla (overtopping_weight p.trees t)).growth L) ∧
      (q.growth L).trees
        = q.trees.map (fun t => (t.set_sla (overtopping_weight p.trees t)).growth L) ∧
      (p.growth L).trees.Perm (q.growth L).trees ∧
      (p.growth L).weight = (q.growth L).weight ∧
      (p.growth L).basal_area = (q.growth L).basal_area := by
  have hf : (fun t : Tree α => (t.set_sla (overtopping_weight q.trees t)).growth L)
      = (fun t : Tree α => (t.set_sla (overtopping_weight p.trees t)).growth L) := by
    funext t; rw [overtopping_weight_perm hperm t]
  have hp : (p.growth L).trees
      = p.trees.map (fun t => (t.set_sla (overtopping_weight p.trees t)).growth L) := by
    rw [Plot.growth_eq]
  have hq : (q.growth L).trees
      = q.trees.map (fun t => (t.set_sla (overtopping_weight p.trees t)).growth L) := by
    rw [Plot.growth_eq, hf]
  have hpq : (p.growth L).trees.Perm (q.growth L).trees := by
    rw [hp, hq]; exact hperm.map _
  refine ⟨hp, hq, hpq, ?_, ?_⟩
  · rw [(Plot.growth_aggregates L p).1, (Plot.growth_aggregates L q).1]
    exact (hpq.map _).sum_eq
  · rw [(Plot.growth_aggregates L p).2, (Plot.growth_aggregates L q).2]
    exact (hpq.map _).sum_eq

end OrderTheorems

/-- Witness of C18: two birches in the two possible orders, with different stale
aggregates. -/
theorem growth_order_independent_witness :
    (Plot.mk [birch_rat 200 5, birch_rat 300 7] 0 0).trees.Perm
        (Plot.mk [birch_rat 300 7, birch_rat 200 5] 9 9).trees ∧
      ((Plot.mk [birch_rat 200 5, birch_rat 300 7] 0 0).growth clib_rat).trees
        = (Plot.mk [birch_rat 200 5, birch_rat 300 7] 0 0).trees.map (fun t =>
            (t.set_sla (overtopping_weight
              (Plot.mk [birch_rat 200 5, birch_rat 300 7] 0 0).trees t)).growth clib_rat) ∧
      ((Plot.mk [birch_rat 300 7, birch_rat 200 5] 9 9).growth clib_rat).trees
        = (Plot.mk [birch_rat 300 7, birch_rat 200 5] 9 9).trees.map (fun t =>
            (t.set_sla (overtopping_weight
              (Plot.mk [birch_rat 200 5, birch_rat 300 7] 0 0).trees t)).growth clib_rat) ∧
      ((Plot.mk [birch_rat 200 5, birch_rat 300 7] 0 0).growth clib_rat).trees.Perm
        ((Plot.mk [birch_rat 300 7, birch_rat 200 5] 9 9).growth clib_rat).trees ∧
      ((Plot.mk [birch_rat 200 5, birch_rat 300 7] 0 0).growth clib_rat).weight
        = ((Plot.mk [birch_rat 300 7, birch_rat 200 5] 9 9).growth clib_rat).weight ∧
      ((Plot.mk [birch_rat 200 5, birch_rat 300 7] 0 0).growth clib_rat).basal_area
        = ((Plot.mk [birch_rat 300 7, birch_rat 200 5] 9 9).growth clib_rat).basal_area :=
  ⟨List.Perm.swap _ _ _,
    growth_order_independent clib_rat (Plot.mk [birch_rat 200 5, birch_rat 300 7] 0 0)
      (Plot.mk [birch_rat 300 7, birch_rat 200 5] 9 9) (List.Perm.swap _ _ _)⟩

/-! ## Forest -/

section ForestTheorems
variable {α : Type} [LinearOrderedField α]

theorem push_plots_eq (n : ℕ) (plots : List (Plot α)) :
    push_plots n plots = plots ++ List.replicate n Plot.new := by
  induction n generalizing plots with
  | zero => simp [push_plots]
  | succ n ih =>
    rw [push_plots, ih, List.replicate_succ, List.append_assoc]
    rfl

theorem Plot.advance_some (L : CLib α) (G : Globals α) (hG : G.WellFormed) (p : Plot α)
    (r : Rng) : ∃ p1 r1, p.advance L G r = some (p1, r1) := by
  obtain ⟨p1, r1, hb⟩ := Plot.birth_some L G hG p r
  exact ⟨(p1.kill L r1).1.growth L, (p1.kill L r1).2, by simp only [Plot.advance, hb]⟩

theorem advance_plots_eq (L : CLib α) (G : Globals α) (hG : G.WellFormed)
    (done todo : List (Plot α)) (r : Rng) :
    ∃ plots1 r1, advance_plots L G done todo r = some (done ++ plots1, r1) ∧
      advanced_each L G todo r plots1 r1 := by
  induction todo generalizing done r with
  | nil => exact ⟨[], r, by simp [advance_plots], advanced_each.nil r⟩
  | cons plot todo ih =>
    obtain ⟨plot1, r1, hp⟩ := Plot.advance_some L G hG plot r
    obtain ⟨plots1, r2, h1, h2⟩ := ih (done ++ [plot1]) r1
    refine ⟨plot1 :: plots1, r2, ?_, advanced_each.cons _ _ _ _ _ _ _ hp h2⟩
    simp only [advance_plots, hp, h1, List.append_assoc, List.singleton_append]

theorem advanced_each_length (L : CLib α) (G : Globals α) {plots plots1 : List (Plot α)}
    {r r1 : Rng} (h : advanced_each L G plots r plots1 r1) : plots1.length = plots.length := by
  induction h with
  | nil r => rfl
  | cons plot plot1 plots plots1 r r1 r2 _ _ ih => simp [ih]

theorem Forest.advance_eq (L : CLib α) (G : Globals α) (hG : G.WellFormed) (f : Forest α)
    (r : Rng) :
    ∃ f1 r1, f.advance L G r = some (f1, r1) ∧ advanced_each L G f.plots r f1.plots r1 ∧
      f1.nplots = f.nplots := by
  obtain ⟨plots1, r1, h1, h2⟩ := advance_plots_eq L G hG [] f.plots r
  refine ⟨{ plots := plots1 }, r1, ?_, h2, ?_⟩
  · simp only [Forest.advance, h1, List.nil_append]
  · simp only [Forest.nplots, advanced_each_length L G h2]

theorem Forest.advance_years_nplots (L : CLib α) (G : Globals α) (hG : G.WellFormed) (n : ℕ)
    (f : Forest α) (r : Rng) :
    ∃ fn rn, Forest.advance_years L G n f r = some (fn, rn) ∧ fn.nplots = f.nplots := by
  induction n generalizing f r with
  | zero => exact ⟨f, r, rfl, rfl⟩
  | succ n ih =>
    obtain ⟨f1, r1, h1, -, hn1⟩ := Forest.advance_eq L G hG f r
    obtain ⟨fn, rn, h2, hn2⟩ := ih f1 r1
    exact ⟨fn, rn, by simp only [Forest.advance_years, h1, h2], hn2.trans hn1⟩

/-- C14: for `N ≥ 0`, `Forest(N)` holds exactly `N` plots, each without trees and
with `weight = basal_area = 0`; `Forest::advance` applies `Plot::advance` once to
each plot, in order, and `nplots()` is unchanged by any number of calls of it
(for a catalog whose three groups are not empty and hold ids of their class, as
after `initialize_gap`, where `Plot::advance` returns). -/
theorem forest_plots (L : CLib α) (G : Globals α) (hG : G.WellFormed) (N : ℤ) (hN : 0 ≤ N) :
    (Forest.new N : Forest α).nplots = N ∧
      (∀ plot ∈ (Forest.new N : Forest α).plots,
        plot.trees = [] ∧ plot.weight = 0 ∧ plot.basal_area = 0) ∧
      (∀ (f : Forest α) (r : Rng), ∃ f1 r1,
        f.advance L G r = some (f1, r1) ∧ advanced_each L G f.plots r f1.plots r1 ∧
        f1.nplots = f.nplots) ∧
      (∀ (n : ℕ) (r : Rng), ∃ fn rn,
        Forest.advance_years L G n (Forest.new N) r = some (fn, rn) ∧ fn.nplots = N) := by
  have hnew : (Forest.new N : Forest α).nplots = N := by
    simp only [Forest.nplots, Forest.new, push_plots_eq, List.nil_append, List.length_replicate]
    exact Int.toNat_of_nonneg hN
  refine ⟨hnew, ?_, fun f r => Forest.advance_eq L G hG f r, ?_⟩
  · intro plot hplot
    simp only [Forest.new, push_plots_eq, List.nil_append] at hplot
    rw [List.eq_of_mem_replicate hplot]
    exact ⟨rfl, rfl, rfl⟩
  · intro n r
    obtain ⟨fn, rn, h1, h2⟩ := Forest.advance_years_nplots L G hG n (Forest.new N) r
    exact ⟨fn, rn, h1, h2.trans hnew⟩

end ForestTheorems

/-- Witness of C14: a forest of 3 plots with the catalog of `initialize_gap`. -/
theorem forest_plots_witness :
    catalog_rat.WellFormed ∧ (0 : ℤ) ≤ 3 ∧
      (Forest.new 3 : Forest ℚ).nplots = 3 ∧
      (∀ plot ∈ (Forest.new 3 : Forest ℚ).plots,
        plot.trees = [] ∧ plot.weight = 0 ∧ plot.basal_area = 0) ∧
      (∀ (f : Forest ℚ) (r : Rng), ∃ f1 r1,
        f.advance clib_rat catalog_rat r = some (f1, r1) ∧
        advanced_each clib_rat catalog_rat f.plots r f1.plots r1 ∧
        f1.nplots = f.nplots) ∧
      (∀ (n : ℕ) (r : Rng), ∃ fn rn,
        Forest.advance_years clib_rat catalog_rat n (Forest.new 3) r = some (fn, rn) ∧
        fn.nplots = 3) :=
  ⟨catalog_rat_wellFormed, by decide,
    forest_plots clib_rat catalog_rat catalog_rat_wellFormed 3 (by decide)⟩

/-! ## Determinism -/

theorem Rng.same_draws_refl (r : Rng) : r.same_draws r := fun _ => rfl

theorem Rng.same_draws_rand {r1 r2 : Rng} (h : r1.same_draws r2) :
    r1.rand.1 = r2.rand.1 ∧ r1.rand.2.same_draws r2.rand.2 := by
  refine ⟨by simpa [Rng.rand] using h 0, fun k => ?_⟩
  have hk := h (1 + k)
  simp only [Rng.rand]
  rw [Nat.add_assoc, Nat.add_assoc]
  exact hk

theorem Rng.same_draws_shift {r1 r2 : Rng} (h : r1.same_draws r2) (n : ℕ) :
    Rng.same_draws { r1 with pos := r1.pos + n } { r2 with pos := r2.pos + n } := by
  intro k
  have hk := h (n + k)
  show r1.stream (r1.pos + n + k) = r2.stream (r2.pos + n + k)
  rw [Nat.add_assoc, Nat.add_assoc]
  exact hk

theorem same_result_cases {X : Type} {a b : Option (X × Rng)} (h : same_result a b) :
    (a = none ∧ b = none) ∨
      ∃ x r s, a = some (x, r) ∧ b = some (x, s) ∧ r.same_draws s := by
  cases a with
  | none =>
    cases b with
    | none => exact Or.inl ⟨rfl, rfl⟩
    | some y => exact absurd h (by simp [same_result])
  | some x =>
    cases b with
    | none => exact absurd h (by simp [same_result])
    | some y =>
      obtain ⟨x1, r⟩ := x
      obtain ⟨y1, s⟩ := y
      have h1 : x1 = y1 ∧ r.same_draws s := h
      exact Or.inr ⟨x1, r, s, rfl, by rw [h1.1], h1.2⟩

theorem same_result_none {X : Type} : same_result (none : Option (X × Rng)) none := trivial

theorem same_result_some {X : Type} (x : X) {r s : Rng} (h : r.same_draws s) :
    same_result (some (x, r)) (some (x, s)) := ⟨rfl, h⟩

section Determinism
variable {α : Type} [LinearOrderedField α]

theorem Tree.new_same (L : CLib α) (G : Globals α) (pft_id : ℕ) {r1 r2 : Rng}
    (h : r1.same_draws r2) :
    same_result (Tree.new L G pft_id r1) (Tree.new L G pft_id r2) := by
  unfold Tree.new
  cases G.pft_vector[pft_id]? with
  | none => exact same_result_none
  | some pft =>
    simp only [(Rng.same_draws_rand h).1]
    exact same_result_some _ (Rng.same_draws_rand h).2

theorem birth_saplings_same (L : CLib α) (G : Globals α) (pft_id : ℕ) (n : ℕ)
    (trees : List (Tree α)) {r1 r2 : Rng} (h : r1.same_draws r2) :
    same_result (birth_saplings L G pft_id n trees r1) (birth_saplings L G pft_id n trees r2) := by
  induction n generalizing trees r1 r2 with
  | zero => exact same_result_some _ h
  | succ n ih =>
    rcases same_result_cases (Tree.new_same L G pft_id h) with ⟨h1, h2⟩ | ⟨t, s1, s2, h1, h2, hs⟩
    · simp only [birth_saplings, h1, h2]; exact same_result_none
    · simp only [birth_saplings, h1, h2]; exact ih _ hs

theorem birth_from_group_same (L : CLib α) (G : Globals α) (group : List ℕ) (n : ℕ)
    (trees : List (Tree α)) {r1 r2 : Rng} (h : r1.same_draws r2) :
    same_result (birth_from_group L G group n trees r1)
      (birth_from_group L G group n trees r2) := by
  induction n generalizing trees r1 r2 with
  | zero => exact same_result_some _ h
  | succ n ih =>
    obtain ⟨hx, hnext⟩ := Rng.same_draws_rand h
    by_cases hl : group.length = 0
    · simp only [birth_from_group, if_pos hl]; exact same_result_none
    · simp only [birth_from_group, if_neg hl, hx]
      cases group[r2.rand.1 % group.length]? with
      | none => exact same_result_none
      | some new_pft =>
        rcases same_result_cases (Tree.new_same L G new_pft hnext) with
          ⟨h1, h2⟩ | ⟨t, s1, s2, h1, h2, hs⟩
        · simp only [h1, h2]; exact same_result_none
        · simp only [h1, h2]; exact ih _ hs

theorem Plot.birth_same (L : CLib α) (G : Globals α) (p : Plot α) {r1 r2 : Rng}
    (h : r1.same_draws r2) : same_result (p.birth L G r1) (p.birth L G r2) := by
  obtain ⟨hx, hnext⟩ := Rng.same_draws_rand h
  obtain ⟨hy, hnext2⟩ := Rng.same_draws_rand hnext
  by_cases hl : G.shade_tolerant_pfts.length = 0
  · simp only [Plot.birth, if_pos hl]; exact same_result_none
  · simp only [Plot.birth, if_neg hl, hx, hy]
    cases G.shade_tolerant_pfts[r2.rand.1 % G.shade_tolerant_pfts.length]? with
    | none => exact same_result_none
    | some id =>
      rcases same_result_cases
          (birth_saplings_same L G id (r2.rand.2.rand.1 % 3) p.trees hnext2) with
        ⟨h1, h2⟩ | ⟨trees1, s1, s2, h1, h2, hs⟩
      · simp only [h1, h2]; exact same_result_none
      · simp only [h1, h2]
        obtain ⟨hz, hnext3⟩ := Rng.same_draws_rand hs
        by_cases hc : p.weight < CHERRY_CUTOFF
        · simp only [if_pos hc, hz]
          rcases same_result_cases (birth_from_group_same L G G.cherry_pfts
              (60 + s2.rand.1 % 16) trees1 hnext3) with ⟨h3, h4⟩ | ⟨trees2, u1, u2, h3, h4, hu⟩
          · simp only [h3, h4]; exact same_result_none
          · simp only [h3, h4]; exact same_result_some _ hu
        · by_cases hb : p.weight < BIRCH_CUTOFF
          · simp only [if_neg hc, if_pos hb, hz]
            rcases same_result_cases (birth_from_group_same L G G.birch_pfts
                (s2.rand.1 % 14) trees1 hnext3) with ⟨h3, h4⟩ | ⟨trees2, u1, u2, h3, h4, hu⟩
            · simp only [h3, h4]; exact same_result_none
            · simp only [h3, h4]; exact same_result_some _ hu
          · simp only [if_neg hc, if_neg hb]; exact same_result_some _ hs

theorem mortality_pass1_same (L : CLib α) (trees : List (Tree α)) {r1 r2 : Rng}
    (h : r1.same_draws r2) :
    (mortality_pass1 L trees r1).1 = (mortality_pass1 L trees r2).1 := by
  induction trees generalizing r1 r2 with
  | nil => rfl
  | cons t ts ih =>
    obtain ⟨hx, hnext⟩ := Rng.same_draws_rand h
    simp only [mortality_pass1, hx]
    split
    · exact ih hnext
    · simp only [ih hnext]

theorem mortality_pass2_same (L : CLib α) (trees : List (Tree α)) {r1 r2 : Rng}
    (h : r1.same_draws r2) :
    (mortality_pass2 L trees r1).1 = (mortality_pass2 L trees r2).1 := by
  induction trees generalizing r1 r2 with
  | nil => rfl
  | cons t ts ih =>
    obtain ⟨hx, hnext⟩ := Rng.same_draws_rand h
    simp only [mortality_pass2, hx]
    split
    · split
      · exact ih hnext
      · simp only [ih hnext]
    · simp only [ih h]

theorem Plot.kill_same (L : CLib α) (p : Plot α) {r1 r2 : Rng} (h : r1.same_draws r2) :
    (p.kill L r1).1 = (p.kill L r2).1 ∧ (p.kill L r1).2.same_draws (p.kill L r2).2 := by
  have h1 := mortality_pass1_same L p.trees h
  have hr1 : (mortality_pass1 L p.trees r1).2.same_draws (mortality_pass1 L p.trees r2).2 := by
    rw [mortality_pass1_rng, mortality_pass1_rng]
    exact Rng.same_draws_shift h _
  have h2 := mortality_pass2_same L (mortality_pass1 L p.trees r1).1 hr1
  rw [Plot.kill_eq_spec, Plot.kill_eq_spec]
  refine ⟨?_, ?_⟩
  · simp only [kill_spec]
    rw [h2, h1]
  · simp only [kill_spec]
    rw [mortality_pass2_rng, mortality_pass2_rng, h1]
    exact Rng.same_draws_shift hr1 _

theorem Plot.advance_same (L : CLib α) (G : Globals α) (p : Plot α) {r1 r2 : Rng}
    (h : r1.same_draws r2) : same_result (p.advance L G r1) (p.advance L G r2) := by
  rcases same_result_cases (Plot.birth_same L G p h) with ⟨h1, h2⟩ | ⟨p1, s1, s2, h1, h2, hs⟩
  · simp only [Plot.advance, h1, h2]; exact same_result_none
  · simp only [Plot.advance, h1, h2]
    obtain ⟨hk, hr⟩ := Plot.kill_same L p1 hs
    rw [hk]
    exact same_result_some _ hr

theorem advance_plots_same (L : CLib α) (G : Globals α) (done todo : List (Plot α))
    {r1 r2 : Rng} (h : r1.same_draws r2) :
    same_result (advance_plots L G done todo r1) (advance_plots L G done todo r2) := by
  induction todo generalizing done r1 r2 with
  | nil => exact same_result_some _ h
  | cons plot todo ih =>
    rcases same_result_cases (Plot.advance_same L G plot h) with
      ⟨h1, h2⟩ | ⟨plot1, s1, s2, h1, h2, hs⟩
    · simp only [advance_plots, h1, h2]; exact same_result_none
    · simp only [advance_plots, h1, h2]; exact ih _ hs

theorem Forest.advance_once_same (L : CLib α) (G : Globals α) (f : Forest α) {r1 r2 : Rng}
    (h : r1.same_draws r2) : same_result (f.advance L G r1) (f.advance L G r2) := by
  rcases same_result_cases (advance_plots_same L G [] f.plots h) with
    ⟨h1, h2⟩ | ⟨plots1, s1, s2, h1, h2, hs⟩
  · simp only [Forest.advance, h1, h2]; exact same_result_none
  · simp only [Forest.advance, h1, h2]; exact same_result_some _ hs

theorem Forest.advance_years_same (L : CLib α) (G : Globals α) (n : ℕ) (f : Forest α)
    {r1 r2 : Rng} (h : r1.same_draws r2) :
    same_result (Forest.advance_years L G n f r1) (Forest.advance_years L G n f r2) := by
  induction n generalizing f r1 r2 with
  | zero => exact same_result_some _ h
  | succ n ih =>
    rcases same_result_cases (Forest.advance_once_same L G f h) with
      ⟨h1, h2⟩ | ⟨f1, s1, s2, h1, h2, hs⟩
    · simp only [Forest.advance_years, h1, h2]; exact same_result_none
    · simp only [Forest.advance_years, h1, h2]; exact ih _ hs

/-- C15: two runs with the same catalog, the same number of plots and generators
that return the same sequence of draws (as after `srand` with the same seed) have,
after any number of years, the same forest, and so the same records from
`Forest::dump_output` for any value of the year counter; the runs do return for a
catalog whose three groups are not empty and hold ids of their class. -/
theorem same_draws_same_forest (L : CLib α) (G : Globals α) (hG : G.WellFormed) (N : ℤ)
    (r1 r2 : Rng) (h : r1.same_draws r2) (n : ℕ) :
    ∃ (f1 f2 : Forest α) (s1 s2 : Rng),
      Forest.advance_years L G n (Forest.new N) r1 = some (f1, s1) ∧
      Forest.advance_years L G n (Forest.new N) r2 = some (f2, s2) ∧
      f1 = f2 ∧ s1.same_draws s2 ∧
      ∀ G1 : Globals α, Forest.dump_output G1 f1 = Forest.dump_output G1 f2 := by
  obtain ⟨fn, rn, hrun, -⟩ := Forest.advance_years_nplots L G hG n (Forest.new N) r1
  rcases same_result_cases (Forest.advance_years_same L G n (Forest.new N) h) with
    ⟨h1, -⟩ | ⟨f, s1, s2, h1, h2, hs⟩
  · rw [hrun] at h1; exact absurd h1 (by simp)
  · exact ⟨f, f, s1, s2, h1, h2, rfl, hs, fun _ => rfl⟩

end Determinism

theorem rng_shifted_same_draws : rng_linear.same_draws rng_shifted := by
  intro k
  simp [rng_linear, rng_shifted]

/-- Witness of C15: three years of a forest of 2 plots, on `rng_linear` and on
`rng_shifted`, two generators that return the same draws. -/
theorem same_draws_same_forest_witness :
    catalog_rat.WellFormed ∧ rng_linear.same_draws rng_shifted ∧
      ∃ (f1 f2 : Forest ℚ) (s1 s2 : Rng),
        Forest.advance_years clib_rat catalog_rat 3 (Forest.new 2) rng_linear = some (f1, s1) ∧
        Forest.advance_years clib_rat catalog_rat 3 (Forest.new 2) rng_shifted
          = some (f2, s2) ∧
        f1 = f2 ∧ s1.same_draws s2 ∧
        ∀ G1 : Globals ℚ, Forest.dump_output G1 f1 = Forest.dump_output G1 f2 :=
  ⟨catalog_rat_wellFormed, rng_shifted_same_draws,
    same_draws_same_forest clib_rat catalog_rat catalog_rat_wellFormed 2 rng_linear
      rng_shifted rng_shifted_same_draws 3⟩

end Gap
